import Mathlib

/-!
# Tuya light: datapoint ↔ light-state adapter

Shallow embedding of `esphome/components/tuya/light/tuya_light.cpp`.

* `float` values are modelled by exact rationals (`ℚ`).  The exceptions are the
  outbound dimmer conversion (line 208) and the colour string (lines 221 to
  240), whose `float` arithmetic decides the integers and digits sent to the
  device: there the `float` operations are rounded to binary32 by
  `float32_round`.  `brightness_int_exact` and `color_value_exact` are the same
  conversions in the exact arithmetic that the round-trip properties stipulate.
* `uint32_t` values are naturals, `int32_t` values are integers; every
  conversion and every arithmetic operation of the source that can leave the
  machine range is passed through `to_uint32` / `to_int32`.
* `call.perform()` on the light state and the `set_*_datapoint_value` calls on
  the Tuya parent are recorded as lists of requests, in program order.
-/

namespace esphome
namespace tuya

/-! ## Machine arithmetic -/

/-- Conversion to `uint32_t`: reduction modulo `2^32`. -/
def to_uint32 (z : Int) : Nat := (z % 4294967296).toNat

/-- Conversion to `int32_t`: two's complement reduction to `[-2^31, 2^31)`. -/
def to_int32 (z : Int) : Int := (z + 2147483648) % 4294967296 - 2147483648

/-- The C function `roundf`: nearest integer, halves away from zero. -/
def roundf (q : ℚ) : Int := if 0 ≤ q then ⌊q + 1 / 2⌋ else ⌈q - 1 / 2⌉

/-- The C conversion `int(x)` of a float: truncation towards zero. -/
def float_to_int (q : ℚ) : Int := if 0 ≤ q then ⌊q⌋ else ⌈q⌉

/-- Rounding to the nearest integer, ties to the even integer. -/
def round_half_even (q : ℚ) : Int :=
  if q - ⌊q⌋ < 1 / 2 then ⌊q⌋
  else if 1 / 2 < q - ⌊q⌋ then ⌊q⌋ + 1
  else if ⌊q⌋ % 2 = 0 then ⌊q⌋ else ⌊q⌋ + 1

/-- Rounding of a non-negative value to binary32: 24 significant bits, least
exponent -126 (subnormals below it), round to nearest, ties to even.  Overflow
to infinity is not modelled; the values rounded in this file are below 2^33. -/
def float32_round_nonneg (q : ℚ) : ℚ :=
  if q = 0 then 0
  else
    let exponent := max (Int.log 2 q) (-126)
    let ulp : ℚ := 2 ^ (exponent - 23)
    (round_half_even (q / ulp) : ℚ) * ulp

/-- Rounding of an exact result to `float` (binary32), as done by a conversion
of an integer to `float` and by each `float` operation. -/
def float32_round (q : ℚ) : ℚ :=
  if 0 ≤ q then float32_round_nonneg q else - float32_round_nonneg (-q)

/-! ## Strings -/

/-- Upper-case hexadecimal digit of a value below 16. -/
def hex_upper (d : Nat) : Char :=
  if d < 10 then Char.ofNat (48 + d) else Char.ofNat (55 + d)

/-- The `printf` conversion `%0<width>X` applied to an `int` argument. -/
def format_X (width : Nat) (v : Int) : List Char :=
  List.leftpad width '0' ((Nat.digits 16 (to_uint32 v)).reverse.map hex_upper)

/-- The method `std::string::substr(pos, len)`; `none` stands for
`std::out_of_range`, raised when `pos` exceeds the length of the string. -/
def substr (s : List Char) (pos len : Nat) : Option (List Char) :=
  if pos ≤ s.length then some ((s.drop pos).take len) else none

/-- Value of one hexadecimal digit, either case. -/
def hex_value (c : Char) : Option Nat :=
  if 48 ≤ c.toNat ∧ c.toNat ≤ 57 then some (c.toNat - 48)
  else if 65 ≤ c.toNat ∧ c.toNat ≤ 70 then some (c.toNat - 55)
  else if 97 ≤ c.toNat ∧ c.toNat ≤ 102 then some (c.toNat - 87)
  else none

/-- Big-endian value of a list of hexadecimal digits. -/
def hex_digits_value : List Char → Option Nat
  | [] => some 0
  | c :: cs =>
    match hex_value c, hex_digits_value cs with
    | some d, some r => some (d * 16 ^ cs.length + r)
    | _, _ => none

/-- Modelled from the spec: `parse_hex<T>` of `esphome/core/helpers.h`, which is
not part of the sources at hand.  "Hex parsing: fixed-width, case-insensitive,
fails (returns empty) on invalid characters or insufficient length."  The width
is the number of hexadecimal digits of `T` (2 for `uint8_t`, 4 for
`uint16_t`). -/
def parse_hex (width : Nat) (s : List Char) : Option Nat :=
  if s.length = width then hex_digits_value s else none

/-! ## Collaborators -/

/-- The enumeration `light::ColorMode`. -/
inductive ColorMode
  | UNKNOWN
  | ON_OFF
  | BRIGHTNESS
  | WHITE
  | COLOR_TEMPERATURE
  | COLD_WARM_WHITE
  | RGB
  | RGB_WHITE
  | RGB_COLOR_TEMPERATURE
  | RGB_COLD_WARM_WHITE
  deriving DecidableEq, Repr

/-- The part of `light::LightTraits` that `get_traits` touches. -/
structure LightTraits where
  supported_color_modes : Finset ColorMode
  min_mireds : ℚ
  max_mireds : ℚ
  deriving DecidableEq

/-- The value type `light::LightColorValues` held twice by the light state. -/
structure LightColorValues where
  color_mode : ColorMode
  state : ℚ
  brightness : ℚ
  color_brightness : ℚ
  red : ℚ
  green : ℚ
  blue : ℚ
  white : ℚ
  color_temperature : ℚ
  cold_white : ℚ
  warm_white : ℚ
  deriving DecidableEq

/-- The method `LightColorValues::is_on()`. -/
def LightColorValues.is_on (v : LightColorValues) : Bool := decide (v.state ≠ 0)

/-- What the adapter reads of `light::LightState`: the two value sets compared
by the transition guard, the gamma setting, and the results of the five
`current_values_as_*` accessors (these belong to the light-state holder and are
taken as given). -/
structure LightState where
  current_values : LightColorValues
  remote_values : LightColorValues
  gamma_correct : ℚ
  /-- Result of `current_values_as_rgbct`: red, green, blue, colour temperature, white brightness. -/
  as_rgbct : ℚ × ℚ × ℚ × ℚ × ℚ
  /-- Result of `current_values_as_rgbw`: red, green, blue, white. -/
  as_rgbw : ℚ × ℚ × ℚ × ℚ
  /-- Result of `current_values_as_rgb`: red, green, blue. -/
  as_rgb : ℚ × ℚ × ℚ
  /-- Result of `current_values_as_ct`: colour temperature, white brightness. -/
  as_ct : ℚ × ℚ
  /-- Result of `current_values_as_brightness`: brightness. -/
  as_brightness : ℚ

/-- A `light::LightCall` as built between `make_call()` and `perform()`. -/
structure LightCall where
  state : Option Bool
  brightness : Option ℚ
  color_temperature : Option ℚ
  red : Option ℚ
  green : Option ℚ
  blue : Option ℚ
  deriving DecidableEq

/-- The method `LightState::make_call()`: a call with nothing set. -/
def make_call : LightCall :=
  { state := none, brightness := none, color_temperature := none,
    red := none, green := none, blue := none }

/-- The setter `LightCall::set_state`. -/
def LightCall.set_state (c : LightCall) (b : Bool) : LightCall := { c with state := some b }

/-- The setter `LightCall::set_brightness`. -/
def LightCall.set_brightness (c : LightCall) (x : ℚ) : LightCall := { c with brightness := some x }

/-- The setter `LightCall::set_color_temperature`. -/
def LightCall.set_color_temperature (c : LightCall) (x : ℚ) : LightCall :=
  { c with color_temperature := some x }

/-- The setter `LightCall::set_rgb`. -/
def LightCall.set_rgb (c : LightCall) (r g b : ℚ) : LightCall :=
  { c with red := some r, green := some g, blue := some b }

/-- One call on the Tuya parent made by the outbound pass. -/
inductive DatapointWrite
  | set_boolean_datapoint_value (datapoint_id : Nat) (value : Bool)
  | set_integer_datapoint_value (datapoint_id : Nat) (value : Nat)
  | set_string_datapoint_value (datapoint_id : Nat) (value : List Char)
  deriving DecidableEq

/-- The fields of `TuyaDatapoint` read by the listeners. -/
structure TuyaDatapoint where
  value_uint : Nat
  value_bool : Bool
  value_string : List Char
  deriving DecidableEq

/-- The enumeration `TuyaColorType`. -/
inductive TuyaColorType
  | RGB
  | HSV
  | RGBHSV
  deriving DecidableEq, Repr

/-- Functions of libm and of `esphome/core/helpers.h` used by the adapter and
not part of the sources at hand. -/
structure Helpers where
  /-- The libm function `powf(base, exponent)`. -/
  powf : ℚ → ℚ → ℚ
  /-- The helper `hsv_to_rgb(hue, saturation, value, red, green, blue)`. -/
  hsv_to_rgb : Int → ℚ → ℚ → ℚ × ℚ × ℚ
  /-- The helper `rgb_to_hsv(red, green, blue, hue, saturation, value)`. -/
  rgb_to_hsv : ℚ → ℚ → ℚ → Int × ℚ × ℚ

/-! ## The adapter -/

/-- The member variables of `TuyaLight` (`color_type_` is the value read by
`*this->color_type_`). -/
structure TuyaLight where
  dimmer_id_ : Option Nat
  min_value_datapoint_id_ : Option Nat
  switch_id_ : Option Nat
  color_id_ : Option Nat
  color_type_ : TuyaColorType
  color_temperature_id_ : Option Nat
  min_value_ : Int
  max_value_ : Int
  color_temperature_max_value_ : Nat
  cold_white_temperature_ : ℚ
  warm_white_temperature_ : ℚ
  color_temperature_invert_ : Bool
  color_interlock_ : Bool
  inhibit_next_send_ : Bool
  deriving DecidableEq

/-- The transition guard shared by the four listeners:
`current_values != remote_values`. -/
def transitioning (state : LightState) : Bool :=
  decide (state.current_values ≠ state.remote_values)

/-- Listener registered in `setup` for the colour-temperature datapoint. -/
def color_temperature_listener (t : TuyaLight) (state : LightState) (datapoint : TuyaDatapoint) :
    TuyaLight × List LightCall :=
  if transitioning state then (t, [])
  else
    let datapoint_value : Nat :=
      if t.color_temperature_invert_ then
        to_uint32 ((t.color_temperature_max_value_ : Int) - (datapoint.value_uint : Int))
      else datapoint.value_uint
    let call := make_call.set_color_temperature
      (t.cold_white_temperature_ +
        (t.warm_white_temperature_ - t.cold_white_temperature_) *
          ((datapoint_value : ℚ) / (t.color_temperature_max_value_ : ℚ)))
    (t, [call])

/-- The brightness computed by the dimmer listener from the raw device value
(lines 44 to 59 of the source). -/
def dimmer_brightness (h : Helpers) (t : TuyaLight) (gamma : ℚ) (value_uint : Nat) : ℚ :=
  let lower := min t.min_value_ t.max_value_
  let upper := max t.min_value_ t.max_value_
  let value := min upper (max lower (to_int32 (value_uint : Int)))
  let brightness : ℚ :=
    ((to_int32 (value - t.min_value_) : Int) : ℚ) /
      ((to_int32 (t.max_value_ - t.min_value_) : Int) : ℚ)
  let brightness := h.powf brightness (1 / gamma)
  if lower > 0 ∧ brightness = 0 then 1 / ((to_int32 (upper - lower) : Int) : ℚ) else brightness

/-- Listener registered in `setup` for the dimmer datapoint. -/
def dimmer_listener (h : Helpers) (t : TuyaLight) (state : LightState) (datapoint : TuyaDatapoint) :
    TuyaLight × List LightCall :=
  if transitioning state then (t, [])
  else if !state.current_values.is_on then (t, [])
  else
    ({ t with inhibit_next_send_ := true },
      [make_call.set_brightness (dimmer_brightness h t state.gamma_correct datapoint.value_uint)])

/-- Listener registered in `setup` for the switch datapoint. -/
def switch_listener (t : TuyaLight) (state : LightState) (datapoint : TuyaDatapoint) :
    TuyaLight × List LightCall :=
  if transitioning state then (t, [])
  else ({ t with inhibit_next_send_ := true }, [make_call.set_state datapoint.value_bool])

/-- Listener registered in `setup` for the colour datapoint.  The result is
`none` when a `substr` call raises `std::out_of_range`. -/
def color_listener (h : Helpers) (t : TuyaLight) (state : LightState) (datapoint : TuyaDatapoint) :
    Option (TuyaLight × List LightCall) :=
  if transitioning state then some (t, [])
  else
    match t.color_type_ with
    | TuyaColorType.RGBHSV | TuyaColorType.RGB =>
      (substr datapoint.value_string 0 2).bind fun s_red =>
      let red := parse_hex 2 s_red
      (substr datapoint.value_string 2 2).bind fun s_green =>
      let green := parse_hex 2 s_green
      (substr datapoint.value_string 4 2).bind fun s_blue =>
      let blue := parse_hex 2 s_blue
      match red, green, blue with
      | some r, some g, some b =>
        some (t, [make_call.set_rgb ((r : ℚ) / 255) ((g : ℚ) / 255) ((b : ℚ) / 255)])
      | _, _, _ => some (t, [])
    | TuyaColorType.HSV =>
      (substr datapoint.value_string 0 4).bind fun s_hue =>
      let hue := parse_hex 4 s_hue
      (substr datapoint.value_string 4 4).bind fun s_saturation =>
      let saturation := parse_hex 4 s_saturation
      (substr datapoint.value_string 8 4).bind fun s_value =>
      let value := parse_hex 4 s_value
      match hue, saturation, value with
      | some hu, some sa, some va =>
        let rgb := h.hsv_to_rgb (hu : Int) ((sa : ℚ) / 1000) ((va : ℚ) / 1000)
        some (t, [make_call.set_rgb rgb.1 rgb.2.1 rgb.2.2])
      | _, _, _ => some (t, [])

/-- The write made at the end of `setup` when a minimum-value datapoint is
configured. -/
def setup_writes (t : TuyaLight) : List DatapointWrite :=
  match t.min_value_datapoint_id_ with
  | some id => [DatapointWrite.set_integer_datapoint_value id (to_uint32 t.min_value_)]
  | none => []

/-- The method `TuyaLight::get_traits`; `traits` is the freshly constructed
`light::LightTraits()`. -/
def get_traits (t : TuyaLight) (traits : LightTraits) : LightTraits :=
  if t.color_temperature_id_.isSome ∧ t.dimmer_id_.isSome then
    let traits :=
      if t.color_id_.isSome then
        if t.color_interlock_ then
          { traits with supported_color_modes := {ColorMode.RGB, ColorMode.COLOR_TEMPERATURE} }
        else
          { traits with
            supported_color_modes := {ColorMode.RGB_COLOR_TEMPERATURE, ColorMode.COLOR_TEMPERATURE} }
      else { traits with supported_color_modes := {ColorMode.COLOR_TEMPERATURE} }
    let traits := { traits with min_mireds := t.cold_white_temperature_ }
    { traits with max_mireds := t.warm_white_temperature_ }
  else if t.color_id_.isSome then
    if t.dimmer_id_.isSome then
      if t.color_interlock_ then
        { traits with supported_color_modes := {ColorMode.RGB, ColorMode.WHITE} }
      else { traits with supported_color_modes := {ColorMode.RGB_WHITE} }
    else { traits with supported_color_modes := {ColorMode.RGB} }
  else if t.dimmer_id_.isSome then
    { traits with supported_color_modes := {ColorMode.BRIGHTNESS} }
  else { traits with supported_color_modes := {ColorMode.ON_OFF} }

/-- The five local floats of `write_state`. -/
structure Extracted where
  red : ℚ
  green : ℚ
  blue : ℚ
  color_temperature : ℚ
  brightness : ℚ
  deriving DecidableEq

/-- Lines 169 to 189 of `write_state`: the locals start at `0.0f` and are
filled by the accessor matching the bound channels. -/
def extract (t : TuyaLight) (state : LightState) : Extracted :=
  if t.color_id_.isSome then
    if t.color_temperature_id_.isSome then
      { red := state.as_rgbct.1, green := state.as_rgbct.2.1, blue := state.as_rgbct.2.2.1,
        color_temperature := state.as_rgbct.2.2.2.1, brightness := state.as_rgbct.2.2.2.2 }
    else if t.dimmer_id_.isSome then
      { red := state.as_rgbw.1, green := state.as_rgbw.2.1, blue := state.as_rgbw.2.2.1,
        color_temperature := 0, brightness := state.as_rgbw.2.2.2 }
    else
      { red := state.as_rgb.1, green := state.as_rgb.2.1, blue := state.as_rgb.2.2,
        color_temperature := 0, brightness := 0 }
  else if t.color_temperature_id_.isSome then
    { red := 0, green := 0, blue := 0,
      color_temperature := state.as_ct.1, brightness := state.as_ct.2 }
  else
    { red := 0, green := 0, blue := 0, color_temperature := 0, brightness := state.as_brightness }

/-- Lines 200 to 203: the colour-temperature value sent to the device. -/
def color_temp_int (t : TuyaLight) (color_temperature : ℚ) : Nat :=
  let color_temp_int := to_uint32 (roundf (color_temperature * (t.color_temperature_max_value_ : ℚ)))
  if t.color_temperature_invert_ then
    to_uint32 ((t.color_temperature_max_value_ : Int) - (color_temp_int : Int))
  else color_temp_int

/-- Lines 208 to 211 with the rounding of `float` results as a parameter: the
`int32_t` difference is converted to `float`, multiplied by the brightness,
the minimum is converted to `float` and added, the sum goes through
`std::ceil` and `uint32_t`, and the value is forced to 0 when the light is not
on. -/
def brightness_int_with (round : ℚ → ℚ) (t : TuyaLight) (brightness : ℚ) : Nat :=
  let is_on := decide (brightness ≠ 0)
  let brightness_int :=
    to_uint32 ⌈round (round (brightness *
      round ((to_int32 (t.max_value_ - t.min_value_) : Int) : ℚ)) + round (t.min_value_ : ℚ))⌉
  if is_on then brightness_int else 0

/-- Lines 208 to 211: the dimmer value sent to the device, computed in `float`
(binary32) as the source does. -/
def brightness_int (t : TuyaLight) (brightness : ℚ) : Nat :=
  brightness_int_with float32_round t brightness

/-- The outbound dimmer conversion of lines 208 to 211 in the exact rational
arithmetic that the round-trip property stipulates: no rounding of the `float`
results, ceil(b*(max-min)+min), forced to 0 when b is 0. -/
def brightness_int_exact (t : TuyaLight) (brightness : ℚ) : Nat :=
  brightness_int_with (fun q => q) t brightness

/-- Lines 217 to 244 with the rounding of `float` results as a parameter: each
channel is multiplied by its scale in `float` (the integer scales 255 and 1000
are exact in `float`), truncated by `int(...)` and printed by `sprintf`. -/
def color_value_with (round : ℚ → ℚ) (h : Helpers) (t : TuyaLight) (red green blue : ℚ) :
    List Char :=
  match t.color_type_ with
  | TuyaColorType.RGB =>
    format_X 2 (float_to_int (round (red * 255))) ++
      format_X 2 (float_to_int (round (green * 255))) ++
      format_X 2 (float_to_int (round (blue * 255)))
  | TuyaColorType.HSV =>
    let hsv := h.rgb_to_hsv red green blue
    format_X 4 hsv.1 ++ format_X 4 (float_to_int (round (hsv.2.1 * 1000))) ++
      format_X 4 (float_to_int (round (hsv.2.2 * 1000)))
  | TuyaColorType.RGBHSV =>
    let hsv := h.rgb_to_hsv red green blue
    format_X 2 (float_to_int (round (red * 255))) ++
      format_X 2 (float_to_int (round (green * 255))) ++
      format_X 2 (float_to_int (round (blue * 255))) ++ format_X 4 hsv.1 ++
      format_X 2 (float_to_int (round (hsv.2.1 * 255))) ++
      format_X 2 (float_to_int (round (hsv.2.2 * 255)))

/-- Lines 217 to 244: the wire string of the colour datapoint, computed in
`float` (binary32) as the source does. -/
def color_value (h : Helpers) (t : TuyaLight) (red green blue : ℚ) : List Char :=
  color_value_with float32_round h t red green blue

/-- The colour string of lines 217 to 244 in the exact rational arithmetic that
the self-inverse property of the RGB encoding stipulates: no rounding of the
products. -/
def color_value_exact (h : Helpers) (t : TuyaLight) (red green blue : ℚ) : List Char :=
  color_value_with (fun q => q) h t red green blue

/-- Lines 198 to 214: the colour-temperature and dimmer writes. -/
def white_writes (t : TuyaLight) (e : Extracted) : List DatapointWrite :=
  if e.brightness > 0 ∨ t.color_interlock_ = false then
    (match t.color_temperature_id_ with
      | some id => [DatapointWrite.set_integer_datapoint_value id (color_temp_int t e.color_temperature)]
      | none => []) ++
    (match t.dimmer_id_ with
      | some id => [DatapointWrite.set_integer_datapoint_value id (brightness_int t e.brightness)]
      | none => [])
  else []

/-- Lines 216 to 246: the colour write. -/
def color_writes (h : Helpers) (t : TuyaLight) (e : Extracted) : List DatapointWrite :=
  match t.color_id_ with
  | some id =>
    if e.brightness = 0 ∨ t.color_interlock_ = false then
      [DatapointWrite.set_string_datapoint_value id (color_value h t e.red e.green e.blue)]
    else []
  | none => []

/-- Lines 248 to 252: the final switch write. -/
def switch_writes (t : TuyaLight) (e : Extracted) : List DatapointWrite :=
  match t.switch_id_ with
  | some id => [DatapointWrite.set_boolean_datapoint_value id (decide (e.brightness ≠ 0))]
  | none => []

/-- Lines 177 to 252 of `write_state`: what a pass does once it is past the
echo-suppression test. -/
def write_body (h : Helpers) (t : TuyaLight) (state : LightState) : List DatapointWrite :=
  let e := extract t state
  match state.current_values.is_on, t.switch_id_ with
  | false, some id => [DatapointWrite.set_boolean_datapoint_value id false]
  | _, _ => white_writes t e ++ color_writes h t e ++ switch_writes t e

/-- The method `TuyaLight::write_state`: the adapter afterwards and the datapoint writes
made, in order. -/
def write_state (h : Helpers) (t : TuyaLight) (state : LightState) :
    TuyaLight × List DatapointWrite :=
  if t.inhibit_next_send_ then ({ t with inhibit_next_send_ := false }, [])
  else (t, write_body h t state)

/-! ## Capability table as the specification words it -/

/-- The rule table of the capability negotiation, read as the specification
gives it: the rows are tried in order and the first row whose condition holds
gives the supported colour modes; when no row matches the result is ON_OFF.
The conditions speak of the temperature, brightness and colour bindings only. -/
def rule_table (temperature brightness colour interlock : Bool) : Finset ColorMode :=
  let rows : List (Bool × Finset ColorMode) :=
    [ (temperature && brightness && colour,
        if interlock then {ColorMode.RGB, ColorMode.COLOR_TEMPERATURE}
        else {ColorMode.RGB_COLOR_TEMPERATURE, ColorMode.COLOR_TEMPERATURE}),
      (temperature && brightness && !colour, {ColorMode.COLOR_TEMPERATURE}),
      (colour && brightness,
        if interlock then {ColorMode.RGB, ColorMode.WHITE} else {ColorMode.RGB_WHITE}),
      (colour, {ColorMode.RGB}),
      (brightness, {ColorMode.BRIGHTNESS}) ]
  ((rows.find? fun row => row.1).map fun row => row.2).getD {ColorMode.ON_OFF}

/-! ## Classification of the writes of a pass -/

/-- A write of the colour datapoint: the only string write of the adapter. -/
def is_color_write : DatapointWrite → Bool
  | DatapointWrite.set_string_datapoint_value _ _ => true
  | _ => false

/-- A write of the white group (colour temperature or dimmer): the integer
writes of the adapter. -/
def is_white_write : DatapointWrite → Bool
  | DatapointWrite.set_integer_datapoint_value _ _ => true
  | _ => false

/-! ## Sample configurations -/

/-- Helper functions for a light without gamma correction: `powf` with
exponent 1 is the identity; the colour conversions are not exercised by the
samples below and return black. -/
def sample_helpers : Helpers :=
  { powf := fun base _ => base,
    hsv_to_rgb := fun _ _ _ => (0, 0, 0),
    rgb_to_hsv := fun _ _ _ => (0, 0, 0) }

/-- A light with switch datapoint 1 and dimmer datapoint 2 over the given
dimmer range, no colour channels, no interlock, no pending echo suppression. -/
def sample_light (min_value max_value : Int) : TuyaLight :=
  { dimmer_id_ := some 2, min_value_datapoint_id_ := none, switch_id_ := some 1,
    color_id_ := none, color_type_ := TuyaColorType.RGB, color_temperature_id_ := none,
    min_value_ := min_value, max_value_ := max_value, color_temperature_max_value_ := 255,
    cold_white_temperature_ := 153, warm_white_temperature_ := 500,
    color_temperature_invert_ := false, color_interlock_ := false,
    inhibit_next_send_ := false }

/-- The sample light with, in addition, colour datapoint 3 (RGB encoding) and
colour-temperature datapoint 4, with the given interlock setting. -/
def sample_color_light (interlock : Bool) : TuyaLight :=
  { sample_light 0 1000 with
    color_id_ := some 3, color_temperature_id_ := some 4, color_interlock_ := interlock }

/-- A light with dimmer datapoint 2 only (no switch, no colour channels) over
the given dimmer range. -/
def sample_dimmer_only (min_value max_value : Int) : TuyaLight :=
  { sample_light min_value max_value with switch_id_ := none }

/-- Colour values of a white light with the given on/off state and brightness. -/
def sample_values (state brightness : ℚ) : LightColorValues :=
  { color_mode := ColorMode.BRIGHTNESS, state := state, brightness := brightness,
    color_brightness := 1, red := 1, green := 1, blue := 1, white := 1,
    color_temperature := 153, cold_white := 1, warm_white := 1 }

/-- A light state at rest (current values equal to the target) with gamma 1,
whose accessors report white at the product of state and brightness. -/
def sample_state (state brightness : ℚ) : LightState :=
  { current_values := sample_values state brightness,
    remote_values := sample_values state brightness,
    gamma_correct := 1,
    as_rgbct := (1, 1, 1, 0, state * brightness),
    as_rgbw := (1, 1, 1, state * brightness),
    as_rgb := (1, 1, 1),
    as_ct := (0, state * brightness),
    as_brightness := state * brightness }

/-- A light state in the middle of a transition from full brightness to the
given brightness. -/
def sample_transition (brightness : ℚ) : LightState :=
  { sample_state 1 1 with remote_values := sample_values 1 brightness }

/-! ## Notions used to state the colour and clipping claims -/

/-- The value the dimmer listener normalises (lines 45 to 47 of the source):
the raw value cast to `int32_t` and clipped into the range, allowing for an
inverted range. -/
def clipped_value (t : TuyaLight) (value_uint : Nat) : Int :=
  let lower := min t.min_value_ t.max_value_
  let upper := max t.min_value_ t.max_value_
  min upper (max lower (to_int32 (value_uint : Int)))

/-- Upper-case hexadecimal digit characters: 0 to 9 and A to F. -/
def is_upper_hex (c : Char) : Bool :=
  (decide (48 ≤ c.toNat) && decide (c.toNat ≤ 57)) ||
    (decide (65 ≤ c.toNat) && decide (c.toNat ≤ 70))

/-- Width of the colour string on the wire for each encoding, as `write_state`
formats it: RRGGBB, HHHHSSSSVVVV, RRGGBBHHHHSSVV. -/
def wire_width : TuyaColorType → Nat
  | TuyaColorType.RGB => 6
  | TuyaColorType.HSV => 12
  | TuyaColorType.RGBHSV => 14

/-- Widths of the fields of the colour string for each encoding: RR GG BB,
HHHH SSSS VVVV, RR GG BB HHHH SS VV. -/
def wire_field_widths : TuyaColorType → List Nat
  | TuyaColorType.RGB => [2, 2, 2]
  | TuyaColorType.HSV => [4, 4, 4]
  | TuyaColorType.RGBHSV => [2, 2, 2, 4, 2, 2]

/-- The numbers the fields of the colour string stand for, as the wire format
names them: red, green and blue scaled by 255 in RGB mode; hue, saturation and
value scaled by 1000 in HSV mode; red, green, blue scaled by 255, hue,
saturation and value scaled by 255 in combined mode.  The products are `float`
products, truncated to `int`. -/
def wire_field_values (h : Helpers) (color_type : TuyaColorType) (red green blue : ℚ) :
    List Int :=
  match color_type with
  | TuyaColorType.RGB =>
    [float_to_int (float32_round (red * 255)), float_to_int (float32_round (green * 255)),
      float_to_int (float32_round (blue * 255))]
  | TuyaColorType.HSV =>
    [(h.rgb_to_hsv red green blue).1,
      float_to_int (float32_round ((h.rgb_to_hsv red green blue).2.1 * 1000)),
      float_to_int (float32_round ((h.rgb_to_hsv red green blue).2.2 * 1000))]
  | TuyaColorType.RGBHSV =>
    [float_to_int (float32_round (red * 255)), float_to_int (float32_round (green * 255)),
      float_to_int (float32_round (blue * 255)), (h.rgb_to_hsv red green blue).1,
      float_to_int (float32_round ((h.rgb_to_hsv red green blue).2.1 * 255)),
      float_to_int (float32_round ((h.rgb_to_hsv red green blue).2.2 * 255))]

/-- Number of leading characters of the payload covered by the three `substr`
calls of the colour listener: three fields of 2 characters in RGB and combined
mode, three fields of 4 characters in HSV mode. -/
def parsed_width : TuyaColorType → Nat
  | TuyaColorType.RGB => 6
  | TuyaColorType.HSV => 12
  | TuyaColorType.RGBHSV => 6

/-- Start position of the last `substr` call of the colour listener: 4 in RGB
and combined mode, 8 in HSV mode. -/
def last_field_position : TuyaColorType → Nat
  | TuyaColorType.RGB => 4
  | TuyaColorType.HSV => 8
  | TuyaColorType.RGBHSV => 4

/-- Modelled from the spec: `rgb_to_hsv` of `esphome/core/helpers.h`, which is
not part of the sources at hand.  "RGB→HSV and HSV→RGB: standard transforms;
hue in device-native angular units (0–360 equivalent scaled as configured),
saturation/value normalized [0,1]."  The hue is the angle in degrees, truncated
to an integer. -/
def standard_rgb_to_hsv (red green blue : ℚ) : Int × ℚ × ℚ :=
  let max_color_value := max (max red green) blue
  let min_color_value := min (min red green) blue
  let delta := max_color_value - min_color_value
  let angle : ℚ :=
    if delta = 0 then 0
    else if max_color_value = red then 60 * ((green - blue) / delta) + 360
    else if max_color_value = green then 60 * ((blue - red) / delta) + 120
    else 60 * ((red - green) / delta) + 240
  (float_to_int (angle - 360 * (⌊angle / 360⌋ : ℚ)),
    if max_color_value = 0 then 0 else delta / max_color_value,
    max_color_value)

/-- Helper functions for a light without gamma correction whose colour is
encoded with the standard RGB to HSV transform. -/
def sample_hsv_helpers : Helpers :=
  { sample_helpers with rgb_to_hsv := standard_rgb_to_hsv }

/-- The sample colour light with inverted colour temperature. -/
def sample_inverted_temperature_light : TuyaLight :=
  { sample_color_light false with color_temperature_invert_ := true }

/-- The sample colour light with the given colour encoding. -/
def sample_encoding_light (color_type : TuyaColorType) : TuyaLight :=
  { sample_color_light false with color_type_ := color_type }

/-- A light with colour datapoint 3 and switch datapoint 1 only: no dimmer and
no colour temperature. -/
def sample_color_switch_light : TuyaLight :=
  { sample_light 0 1000 with dimmer_id_ := none, color_id_ := some 3 }

/-! ## Theorems -/

theorem to_int32_of_range (z : Int) (h1 : -2147483648 ≤ z) (h2 : z < 2147483648) :
    to_int32 z = z := by
  unfold to_int32
  omega

theorem to_uint32_of_range (z : Int) (h1 : 0 ≤ z) (h2 : z < 4294967296) :
    (to_uint32 z : Int) = z := by
  unfold to_uint32
  rw [Int.emod_eq_of_lt h1 h2, Int.toNat_of_nonneg h1]

/-! ## Rounding to binary32 -/

theorem round_half_even_bounds (q : ℚ) :
    q - 1 / 2 ≤ (round_half_even q : ℚ) ∧ (round_half_even q : ℚ) ≤ q + 1 / 2 := by
  have h1 := Int.floor_le q
  have h2 := Int.lt_floor_add_one q
  unfold round_half_even
  split_ifs with ha hb hc
  · constructor <;> linarith
  · push_cast
    constructor <;> linarith
  · constructor <;> linarith
  · push_cast
    constructor <;> linarith

theorem round_half_even_mono (x y : ℚ) (hxy : x ≤ y) : round_half_even x ≤ round_half_even y := by
  rcases hxy.eq_or_lt with heq | hlt
  · rw [heq]
  · by_contra hcon
    have hstep : round_half_even y + 1 ≤ round_half_even x := by omega
    have hq : ((round_half_even y : Int) : ℚ) + 1 ≤ ((round_half_even x : Int) : ℚ) := by
      exact_mod_cast hstep
    have hx := (round_half_even_bounds x).2
    have hy := (round_half_even_bounds y).1
    linarith

theorem round_half_even_intCast (z : Int) : round_half_even (z : ℚ) = z := by
  simp [round_half_even]

/-- The unit in the last place used for a positive value. -/
theorem float32_ulp_pos (e : Int) : (0 : ℚ) < 2 ^ (e - 23) := zpow_pos (by norm_num) _

theorem float32_ulp_mul (e : Int) : (2 : ℚ) ^ (e - 23) * 8388608 = 2 ^ e := by
  have h23 : (8388608 : ℚ) = 2 ^ (23 : Int) := by norm_num
  rw [h23, ← zpow_add₀ (by norm_num : (2 : ℚ) ≠ 0)]
  congr 1
  ring

theorem float32_round_nonneg_eq (q : ℚ) (hq : q ≠ 0) :
    float32_round_nonneg q =
      (round_half_even (q / 2 ^ (max (Int.log 2 q) (-126) - 23)) : ℚ) *
        2 ^ (max (Int.log 2 q) (-126) - 23) := by
  simp [float32_round_nonneg, hq]

theorem float32_round_nonneg_zero : float32_round_nonneg 0 = 0 := by
  simp [float32_round_nonneg]

theorem float32_round_nonneg_nonneg (q : ℚ) (hq : 0 ≤ q) : 0 ≤ float32_round_nonneg q := by
  rcases hq.eq_or_lt with hz | hpos
  · rw [← hz, float32_round_nonneg_zero]
  · rw [float32_round_nonneg_eq q hpos.ne']
    have hu := float32_ulp_pos (max (Int.log 2 q) (-126))
    have hr : round_half_even 0 ≤ round_half_even (q / 2 ^ (max (Int.log 2 q) (-126) - 23)) :=
      round_half_even_mono _ _ (div_nonneg hq hu.le)
    have h0 : round_half_even 0 = 0 := by simpa using round_half_even_intCast 0
    rw [h0] at hr
    have hrq : (0 : ℚ) ≤ (round_half_even (q / 2 ^ (max (Int.log 2 q) (-126) - 23)) : ℚ) := by
      exact_mod_cast hr
    exact mul_nonneg hrq hu.le

/-- A positive value rounds to at most the next power of two above it. -/
theorem float32_round_nonneg_le_pow (q : ℚ) (hq : 0 < q) :
    float32_round_nonneg q ≤ 2 ^ (max (Int.log 2 q) (-126) + 1) := by
  rw [float32_round_nonneg_eq q hq.ne']
  have hu := float32_ulp_pos (max (Int.log 2 q) (-126))
  have hmul := float32_ulp_mul (max (Int.log 2 q) (-126))
  have hlt : q < (2 : ℚ) ^ (Int.log 2 q + 1) := by
    have := Int.lt_zpow_succ_log_self (b := 2) (by norm_num) q
    simpa using this
  have hle : (2 : ℚ) ^ (Int.log 2 q + 1) ≤ 2 ^ (max (Int.log 2 q) (-126) + 1) :=
    zpow_le_zpow_right₀ (by norm_num) (by omega)
  have hsucc : (2 : ℚ) ^ (max (Int.log 2 q) (-126) + 1) =
      2 ^ (max (Int.log 2 q) (-126)) * 2 := zpow_add_one₀ (by norm_num) _
  have hdiv : q / 2 ^ (max (Int.log 2 q) (-126) - 23) ≤ ((16777216 : Int) : ℚ) := by
    rw [div_le_iff₀ hu]
    push_cast
    linarith
  have hr := round_half_even_mono _ _ hdiv
  rw [round_half_even_intCast] at hr
  have hrq : (round_half_even (q / 2 ^ (max (Int.log 2 q) (-126) - 23)) : ℚ) ≤ 16777216 := by
    exact_mod_cast hr
  calc (round_half_even (q / 2 ^ (max (Int.log 2 q) (-126) - 23)) : ℚ) *
        2 ^ (max (Int.log 2 q) (-126) - 23)
      ≤ 16777216 * 2 ^ (max (Int.log 2 q) (-126) - 23) :=
        mul_le_mul_of_nonneg_right hrq hu.le
    _ = 2 ^ (max (Int.log 2 q) (-126) + 1) := by rw [hsucc]; linarith

/-- A positive normal value rounds to at least the power of two below it. -/
theorem float32_round_nonneg_ge_pow (q : ℚ) (hq : 0 < q) (hnormal : -126 ≤ Int.log 2 q) :
    (2 : ℚ) ^ (max (Int.log 2 q) (-126)) ≤ float32_round_nonneg q := by
  rw [float32_round_nonneg_eq q hq.ne']
  have he : max (Int.log 2 q) (-126) = Int.log 2 q := max_eq_left hnormal
  rw [he]
  have hu := float32_ulp_pos (Int.log 2 q)
  have hmul := float32_ulp_mul (Int.log 2 q)
  have hge : (2 : ℚ) ^ (Int.log 2 q) ≤ q := by
    have := Int.zpow_log_le_self (b := 2) (by norm_num) hq
    simpa using this
  have hdiv : ((8388608 : Int) : ℚ) ≤ q / 2 ^ (Int.log 2 q - 23) := by
    rw [le_div_iff₀ hu]
    push_cast
    linarith
  have hr := round_half_even_mono _ _ hdiv
  rw [round_half_even_intCast] at hr
  have hrq : (8388608 : ℚ) ≤ (round_half_even (q / 2 ^ (Int.log 2 q - 23)) : ℚ) := by
    exact_mod_cast hr
  calc (2 : ℚ) ^ (Int.log 2 q) = 8388608 * 2 ^ (Int.log 2 q - 23) := by linarith
    _ ≤ (round_half_even (q / 2 ^ (Int.log 2 q - 23)) : ℚ) * 2 ^ (Int.log 2 q - 23) :=
        mul_le_mul_of_nonneg_right hrq hu.le

theorem float32_round_nonneg_mono (x y : ℚ) (hx : 0 ≤ x) (hxy : x ≤ y) :
    float32_round_nonneg x ≤ float32_round_nonneg y := by
  rcases hx.eq_or_lt with hz | hpos
  · rw [← hz, float32_round_nonneg_zero]
    exact float32_round_nonneg_nonneg y (le_trans hx hxy)
  · have hypos : 0 < y := lt_of_lt_of_le hpos hxy
    have hlog : Int.log 2 x ≤ Int.log 2 y := Int.log_mono_right hpos hxy
    rcases (max_le_max hlog (le_refl (-126 : Int))).eq_or_lt with heq | hlt
    · rw [float32_round_nonneg_eq x hpos.ne', float32_round_nonneg_eq y hypos.ne', heq]
      have hu := float32_ulp_pos (max (Int.log 2 y) (-126))
      have hr := round_half_even_mono _ _ (div_le_div_of_nonneg_right hxy hu.le)
      have hrq : (round_half_even (x / 2 ^ (max (Int.log 2 y) (-126) - 23)) : ℚ) ≤
          (round_half_even (y / 2 ^ (max (Int.log 2 y) (-126) - 23)) : ℚ) := by
        exact_mod_cast hr
      exact mul_le_mul_of_nonneg_right hrq hu.le
    · have hnormal : -126 ≤ Int.log 2 y := by
        by_contra hcon
        have : max (Int.log 2 y) (-126) = -126 := max_eq_right (by omega)
        have h126 : -126 ≤ max (Int.log 2 x) (-126) := le_max_right _ _
        omega
      have h1 := float32_round_nonneg_le_pow x hpos
      have h2 := float32_round_nonneg_ge_pow y hypos hnormal
      have h3 : (2 : ℚ) ^ (max (Int.log 2 x) (-126) + 1) ≤ 2 ^ (max (Int.log 2 y) (-126)) :=
        zpow_le_zpow_right₀ (by norm_num) (by omega)
      linarith

/-- Rounding to binary32 is monotone. -/
theorem float32_round_mono (x y : ℚ) (hxy : x ≤ y) : float32_round x ≤ float32_round y := by
  unfold float32_round
  split_ifs with hx hy hy
  · exact float32_round_nonneg_mono x y hx hxy
  · exact absurd (le_trans hx hxy) hy
  · have h1 := float32_round_nonneg_nonneg (-x) (by linarith)
    have h2 := float32_round_nonneg_nonneg y hy
    linarith
  · have := float32_round_nonneg_mono (-y) (-x) (by linarith) (by linarith)
    linarith

/-- A value that is a whole number of units in the last place is not changed. -/
theorem float32_round_nonneg_of_units (q : ℚ) (hq : q ≠ 0) (z : Int)
    (hz : q / 2 ^ (max (Int.log 2 q) (-126) - 23) = (z : ℚ)) : float32_round_nonneg q = q := by
  rw [float32_round_nonneg_eq q hq, hz, round_half_even_intCast, ← hz]
  exact div_mul_cancel₀ _ (float32_ulp_pos _).ne'

/-- Every natural number up to 2^24 is a binary32 value. -/
theorem float32_round_nonneg_natCast (n : Nat) (hn : n ≤ 16777216) :
    float32_round_nonneg (n : ℚ) = (n : ℚ) := by
  rcases Nat.eq_zero_or_pos n with hz | hpos
  · subst hz
    simpa using float32_round_nonneg_zero
  · have hq : (n : ℚ) ≠ 0 := by exact_mod_cast hpos.ne'
    have hlog : Int.log 2 (n : ℚ) = (Nat.log 2 n : Int) := Int.log_natCast 2 n
    have hlt : Nat.log 2 n < 25 := Nat.log_lt_of_lt_pow hpos.ne' (by norm_num; omega)
    have hmax : max (Int.log 2 (n : ℚ)) (-126) = (Nat.log 2 n : Int) := by
      rw [hlog]
      exact max_eq_left (by omega)
    rcases Nat.lt_or_ge (Nat.log 2 n) 24 with hsmall | hbig
    · apply float32_round_nonneg_of_units (n : ℚ) hq ((n * 2 ^ (23 - Nat.log 2 n) : Nat) : Int)
      rw [hmax]
      have hexp : ((Nat.log 2 n : Int) - 23) = -((23 - Nat.log 2 n : Nat) : Int) := by omega
      rw [hexp, zpow_neg, zpow_natCast, div_inv_eq_mul]
      push_cast
      ring
    · have he : Nat.log 2 n = 24 := by omega
      have hpow : 2 ^ Nat.log 2 n ≤ n := Nat.pow_log_le_self 2 hpos.ne'
      rw [he] at hpow
      have hn' : n = 16777216 := by norm_num at hpow; omega
      apply float32_round_nonneg_of_units (n : ℚ) hq 8388608
      rw [hmax, he, hn']
      norm_num

/-- Every integer of absolute value at most 2^24 is a binary32 value. -/
theorem float32_round_intCast (z : Int) (hlo : -16777216 ≤ z) (hhi : z ≤ 16777216) :
    float32_round (z : ℚ) = (z : ℚ) := by
  unfold float32_round
  split_ifs with hz
  · have hz' : 0 ≤ z := by exact_mod_cast hz
    have hcast : (z : ℚ) = ((z.toNat : Nat) : ℚ) := by
      have : (z.toNat : Int) = z := Int.toNat_of_nonneg hz'
      exact_mod_cast this.symm
    rw [hcast]
    exact float32_round_nonneg_natCast _ (by omega)
  · have hz' : z < 0 := by
      by_contra hcon
      exact hz (by exact_mod_cast (not_lt.mp hcon))
    have hcast : -(z : ℚ) = (((-z).toNat : Nat) : ℚ) := by
      have : ((-z).toNat : Int) = -z := Int.toNat_of_nonneg (by omega)
      have hq : (((-z).toNat : Int) : ℚ) = ((-z : Int) : ℚ) := by rw [this]
      push_cast at hq
      exact hq.symm
    rw [hcast, float32_round_nonneg_natCast _ (by omega), ← hcast]
    ring

/-- Rounding to binary32 does not cross an integer of absolute value at most 2^24. -/
theorem float32_round_between (x : ℚ) (lo hi : Int) (hlo0 : -16777216 ≤ lo) (hlo1 : lo ≤ 16777216)
    (hhi0 : -16777216 ≤ hi) (hhi1 : hi ≤ 16777216) (h1 : (lo : ℚ) ≤ x) (h2 : x ≤ (hi : ℚ)) :
    (lo : ℚ) ≤ float32_round x ∧ float32_round x ≤ (hi : ℚ) := by
  constructor
  · rw [← float32_round_intCast lo hlo0 hlo1]
    exact float32_round_mono _ _ h1
  · rw [← float32_round_intCast hi hhi0 hhi1]
    exact float32_round_mono _ _ h2

/-- The `float` computation of line 208 over a range of non-negative device
units of at most 2^24 (exactly representable in binary32): for a brightness in
(0,1] the sum stays between the two ends of the range after every rounding,
and so does its ceiling; at brightness 1 it is max_value. -/
theorem float_ceil_affine_bounds (m M : Int) (b : ℚ)
    (hm0 : 0 ≤ m) (hm1 : m ≤ 16777216) (hM0 : 0 ≤ M) (hM1 : M ≤ 16777216)
    (hb0 : 0 ≤ b) (hb1 : b ≤ 1) :
    min m M ≤ ⌈float32_round (float32_round (b * float32_round ((M - m : Int) : ℚ)) +
        float32_round (m : ℚ))⌉ ∧
      ⌈float32_round (float32_round (b * float32_round ((M - m : Int) : ℚ)) +
        float32_round (m : ℚ))⌉ ≤ max m M ∧
      (b = 1 → ⌈float32_round (float32_round (b * float32_round ((M - m : Int) : ℚ)) +
        float32_round (m : ℚ))⌉ = M) := by
  have hfd : float32_round ((M - m : Int) : ℚ) = ((M - m : Int) : ℚ) :=
    float32_round_intCast _ (by omega) (by omega)
  have hfm : float32_round (m : ℚ) = (m : ℚ) := float32_round_intCast m (by omega) hm1
  have hfM : float32_round (M : ℚ) = (M : ℚ) := float32_round_intCast M (by omega) hM1
  rw [hfd, hfm]
  have hcast : ((M - m : Int) : ℚ) = (M : ℚ) - (m : ℚ) := by push_cast; ring
  refine ⟨?_, ?_, ?_⟩
  · rcases le_total m M with hle | hle
    · have hq : (m : ℚ) ≤ (M : ℚ) := by exact_mod_cast hle
      have hp := float32_round_between (b * ((M - m : Int) : ℚ)) 0 (M - m) (by omega) (by omega)
        (by omega) (by omega) (by rw [hcast]; push_cast; exact mul_nonneg hb0 (by linarith))
        (by rw [hcast]; nlinarith)
      rw [hcast] at hp
      push_cast at hp
      have hs := float32_round_between (float32_round (b * ((M : ℚ) - (m : ℚ))) + (m : ℚ)) m M
        (by omega) hm1 (by omega) hM1 (by linarith [hp.1]) (by linarith [hp.2])
      rw [hcast, min_eq_left hle]
      exact_mod_cast le_trans hs.1 (Int.le_ceil _)
    · have hq : (M : ℚ) ≤ (m : ℚ) := by exact_mod_cast hle
      have hp := float32_round_between (b * ((M - m : Int) : ℚ)) (M - m) 0 (by omega) (by omega)
        (by omega) (by omega) (by rw [hcast]; nlinarith)
        (by rw [hcast]; push_cast; exact mul_nonpos_of_nonneg_of_nonpos hb0 (by linarith))
      rw [hcast] at hp
      push_cast at hp
      have hs := float32_round_between (float32_round (b * ((M : ℚ) - (m : ℚ))) + (m : ℚ)) M m
        (by omega) hM1 (by omega) hm1 (by linarith [hp.1]) (by linarith [hp.2])
      rw [hcast, min_eq_right hle]
      exact_mod_cast le_trans hs.1 (Int.le_ceil _)
  · rcases le_total m M with hle | hle
    · have hq : (m : ℚ) ≤ (M : ℚ) := by exact_mod_cast hle
      have hp := float32_round_between (b * ((M - m : Int) : ℚ)) 0 (M - m) (by omega) (by omega)
        (by omega) (by omega) (by rw [hcast]; push_cast; exact mul_nonneg hb0 (by linarith))
        (by rw [hcast]; nlinarith)
      rw [hcast] at hp
      push_cast at hp
      have hs := float32_round_between (float32_round (b * ((M : ℚ) - (m : ℚ))) + (m : ℚ)) m M
        (by omega) hm1 (by omega) hM1 (by linarith [hp.1]) (by linarith [hp.2])
      rw [hcast, max_eq_right hle, Int.ceil_le]
      exact hs.2
    · have hq : (M : ℚ) ≤ (m : ℚ) := by exact_mod_cast hle
      have hp := float32_round_between (b * ((M - m : Int) : ℚ)) (M - m) 0 (by omega) (by omega)
        (by omega) (by omega) (by rw [hcast]; nlinarith)
        (by rw [hcast]; push_cast; exact mul_nonpos_of_nonneg_of_nonpos hb0 (by linarith))
      rw [hcast] at hp
      push_cast at hp
      have hs := float32_round_between (float32_round (b * ((M : ℚ) - (m : ℚ))) + (m : ℚ)) M m
        (by omega) hM1 (by omega) hm1 (by linarith [hp.1]) (by linarith [hp.2])
      rw [hcast, max_eq_left hle, Int.ceil_le]
      exact hs.2
  · intro hone
    rw [hone, one_mul, hfd]
    have hsum : ((M - m : Int) : ℚ) + (m : ℚ) = (M : ℚ) := by push_cast; ring
    rw [hsum, hfM, Int.ceil_intCast]

/-- Within a range of at most 2^24 the dimmer value of a non-zero brightness is
the ceiling of the rounded sum, with no wrap-around. -/
theorem brightness_int_eq_ceil (t : TuyaLight) (b : ℚ)
    (hmin0 : 0 ≤ t.min_value_) (hmin1 : t.min_value_ ≤ 16777216)
    (hmax0 : 0 ≤ t.max_value_) (hmax1 : t.max_value_ ≤ 16777216)
    (hb0 : 0 < b) (hb1 : b ≤ 1) :
    (brightness_int t b : Int) =
      ⌈float32_round (float32_round (b *
        float32_round ((t.max_value_ - t.min_value_ : Int) : ℚ)) +
          float32_round (t.min_value_ : ℚ))⌉ := by
  have hd : to_int32 (t.max_value_ - t.min_value_) = t.max_value_ - t.min_value_ :=
    to_int32_of_range _ (by omega) (by omega)
  have hbounds := float_ceil_affine_bounds t.min_value_ t.max_value_ b hmin0 hmin1 hmax0 hmax1
    hb0.le hb1
  have hlo : 0 ≤ min t.min_value_ t.max_value_ := le_min hmin0 hmax0
  have hhi : max t.min_value_ t.max_value_ ≤ 16777216 := max_le hmin1 hmax1
  simp only [brightness_int, brightness_int_with, hd, ne_eq, hb0.ne', not_false_eq_true,
    decide_True, if_true]
  exact to_uint32_of_range _ (by omega) (by omega)

/-- A brightness whose product with the width of the range is a whole number is
converted without any rounding. -/
theorem brightness_int_of_integral (t : TuyaLight) (b : ℚ) (z : Int)
    (hmin0 : 0 ≤ t.min_value_) (hmin1 : t.min_value_ ≤ 16777216)
    (hmax0 : 0 ≤ t.max_value_) (hmax1 : t.max_value_ ≤ 16777216)
    (hb0 : 0 < b) (hb1 : b ≤ 1)
    (hz : b * ((t.max_value_ - t.min_value_ : Int) : ℚ) = (z : ℚ)) :
    (brightness_int t b : Int) = z + t.min_value_ := by
  have hfd : float32_round ((t.max_value_ - t.min_value_ : Int) : ℚ) =
      ((t.max_value_ - t.min_value_ : Int) : ℚ) :=
    float32_round_intCast _ (by omega) (by omega)
  have hfm : float32_round (t.min_value_ : ℚ) = (t.min_value_ : ℚ) :=
    float32_round_intCast _ (by omega) hmin1
  have hzb : -16777216 ≤ z ∧ z ≤ 16777216 ∧ 0 ≤ z + t.min_value_ ∧ z + t.min_value_ ≤ 16777216 := by
    have hcast : ((t.max_value_ - t.min_value_ : Int) : ℚ) =
        (t.max_value_ : ℚ) - (t.min_value_ : ℚ) := by push_cast; ring
    rw [hcast] at hz
    have hM0 : (0 : ℚ) ≤ (t.max_value_ : ℚ) := by exact_mod_cast hmax0
    have hM1 : (t.max_value_ : ℚ) ≤ 16777216 := by exact_mod_cast hmax1
    have hm0 : (0 : ℚ) ≤ (t.min_value_ : ℚ) := by exact_mod_cast hmin0
    have hm1 : (t.min_value_ : ℚ) ≤ 16777216 := by exact_mod_cast hmin1
    have hbM : 0 ≤ b * (t.max_value_ : ℚ) := mul_nonneg hb0.le hM0
    have hbm : 0 ≤ b * (t.min_value_ : ℚ) := mul_nonneg hb0.le hm0
    have hbM' : b * (t.max_value_ : ℚ) ≤ (t.max_value_ : ℚ) := mul_le_of_le_one_left hM0 hb1
    have hbm' : b * (t.min_value_ : ℚ) ≤ (t.min_value_ : ℚ) := mul_le_of_le_one_left hm0 hb1
    have hz' : b * (t.max_value_ : ℚ) - b * (t.min_value_ : ℚ) = (z : ℚ) := by
      rw [← hz]
      ring
    have h1 : (-16777216 : ℚ) ≤ (z : ℚ) := by linarith
    have h2 : (z : ℚ) ≤ 16777216 := by linarith
    have h3 : (0 : ℚ) ≤ (z : ℚ) + (t.min_value_ : ℚ) := by linarith
    have hA : 0 ≤ b * (16777216 - (t.max_value_ : ℚ)) := mul_nonneg hb0.le (by linarith)
    have hB : 0 ≤ (1 - b) * (16777216 - (t.min_value_ : ℚ)) :=
      mul_nonneg (by linarith) (by linarith)
    have h4 : (z : ℚ) + (t.min_value_ : ℚ) ≤ 16777216 := by linarith
    exact ⟨by exact_mod_cast h1, by exact_mod_cast h2, by exact_mod_cast h3,
      by exact_mod_cast h4⟩
  rw [brightness_int_eq_ceil t b hmin0 hmin1 hmax0 hmax1 hb0 hb1, hfd, hfm, hz,
    float32_round_intCast z hzb.1 hzb.2.1]
  have hsum : (z : ℚ) + (t.min_value_ : ℚ) = ((z + t.min_value_ : Int) : ℚ) := by push_cast; ring
  rw [hsum, float32_round_intCast _ (by omega) hzb.2.2.2, Int.ceil_intCast]

theorem sample_state_is_on (brightness : ℚ) :
    (sample_state 1 brightness).current_values.is_on = true := by
  simp [sample_state, sample_values, LightColorValues.is_on]

theorem sample_state_is_off (brightness : ℚ) :
    (sample_state 0 brightness).current_values.is_on = false := by
  simp [sample_state, sample_values, LightColorValues.is_on]

theorem transitioning_of_ne (state : LightState)
    (hne : state.current_values ≠ state.remote_values) : transitioning state = true := by
  simp [transitioning, hne]

theorem transitioning_of_eq (state : LightState)
    (heq : state.current_values = state.remote_values) : transitioning state = false := by
  simp [transitioning, heq]

/-- C1: for every binding combination and interlock value `get_traits` sets
the supported colour modes to the first matching row of the rule table; the
mired bounds become (cold, warm) exactly when temperature and brightness are
both bound and are otherwise those of the fresh traits; the switch binding
does not change the result. -/
theorem get_traits_rule_table (t : TuyaLight) (traits : LightTraits) (switch_id : Option Nat) :
    (get_traits t traits).supported_color_modes =
        rule_table t.color_temperature_id_.isSome t.dimmer_id_.isSome t.color_id_.isSome
          t.color_interlock_ ∧
      (get_traits t traits).min_mireds =
        (if t.color_temperature_id_.isSome ∧ t.dimmer_id_.isSome then t.cold_white_temperature_
         else traits.min_mireds) ∧
      (get_traits t traits).max_mireds =
        (if t.color_temperature_id_.isSome ∧ t.dimmer_id_.isSome then t.warm_white_temperature_
         else traits.max_mireds) ∧
      get_traits { t with switch_id_ := switch_id } traits = get_traits t traits := by
  obtain ⟨dimmer, mvd, sw, colour, ctype, temperature, mn, mx, cmax, cold, warm, inv, interlock,
    inhibit⟩ := t
  refine ⟨?_, ?_, ?_, rfl⟩ <;>
    cases temperature <;> cases dimmer <;> cases colour <;> cases interlock <;>
    simp [get_traits, rule_table]

/-- C2: while the current values differ from the remote values, each of the
four inbound listeners returns the adapter unchanged (echo-suppression flag
included) and issues no light-state request, whatever the datapoint holds. -/
theorem listeners_noop_while_transitioning (h : Helpers) (t : TuyaLight) (state : LightState)
    (datapoint : TuyaDatapoint) (hne : state.current_values ≠ state.remote_values) :
    color_temperature_listener t state datapoint = (t, []) ∧
      dimmer_listener h t state datapoint = (t, []) ∧
      switch_listener t state datapoint = (t, []) ∧
      color_listener h t state datapoint = some (t, []) := by
  have hg := transitioning_of_ne state hne
  simp [color_temperature_listener, dimmer_listener, switch_listener, color_listener, hg]

theorem listeners_noop_while_transitioning_witness :
    (sample_transition (1 / 2)).current_values ≠ (sample_transition (1 / 2)).remote_values ∧
      color_temperature_listener (sample_light 0 1000) (sample_transition (1 / 2)) ⟨512, true, []⟩ =
        (sample_light 0 1000, []) ∧
      dimmer_listener sample_helpers (sample_light 0 1000) (sample_transition (1 / 2))
        ⟨512, true, []⟩ = (sample_light 0 1000, []) ∧
      switch_listener (sample_light 0 1000) (sample_transition (1 / 2)) ⟨512, true, []⟩ =
        (sample_light 0 1000, []) ∧
      color_listener sample_helpers (sample_light 0 1000) (sample_transition (1 / 2))
        ⟨512, true, []⟩ = some (sample_light 0 1000, []) :=
  have hne : (sample_transition (1 / 2)).current_values ≠
      (sample_transition (1 / 2)).remote_values := by
    simp [sample_transition, sample_state, sample_values]
  ⟨hne, listeners_noop_while_transitioning sample_helpers (sample_light 0 1000)
    (sample_transition (1 / 2)) ⟨512, true, []⟩ hne⟩

/-- C3: echo suppression skips exactly one outbound pass.  After every
`write_state` the flag is false and nothing else of the adapter has changed
(so `write_state` never sets the flag); a pass entered with the flag set
writes nothing; a pass entered with the flag clear runs the normal write
logic; and the pass that follows any pass, with no listener run in between,
is never skipped: it runs the normal write logic. -/
theorem write_state_echo_suppression (h : Helpers) (t : TuyaLight) (state state' : LightState) :
    (write_state h t state).1.inhibit_next_send_ = false ∧
      (write_state h t state).1 = { t with inhibit_next_send_ := false } ∧
      (t.inhibit_next_send_ = true → (write_state h t state).2 = []) ∧
      (t.inhibit_next_send_ = false → (write_state h t state).2 = write_body h t state) ∧
      write_state h (write_state h t state).1 state' =
        ((write_state h t state).1, write_body h (write_state h t state).1 state') := by
  obtain ⟨dimmer, mvd, sw, colour, ctype, temperature, mn, mx, cmax, cold, warm, inv, interlock,
    inhibit⟩ := t
  cases inhibit <;> simp [write_state]

theorem write_state_echo_suppression_witness :
    dimmer_listener sample_helpers (sample_light 0 1000) (sample_state 1 1) ⟨512, false, []⟩ =
        ({ sample_light 0 1000 with inhibit_next_send_ := true },
          [make_call.set_brightness (64 / 125)]) ∧
      write_state sample_helpers { sample_light 0 1000 with inhibit_next_send_ := true }
          (sample_state 1 (64 / 125)) = (sample_light 0 1000, []) ∧
      write_state sample_helpers (sample_light 0 1000) (sample_state 1 (64 / 125)) =
        (sample_light 0 1000,
          [DatapointWrite.set_integer_datapoint_value 2 512,
            DatapointWrite.set_boolean_datapoint_value 1 true]) ∧
      write_state sample_helpers
          (write_state sample_helpers { sample_light 0 1000 with inhibit_next_send_ := true }
            (sample_state 1 (64 / 125))).1 (sample_state 1 (64 / 125)) =
        ((write_state sample_helpers { sample_light 0 1000 with inhibit_next_send_ := true }
            (sample_state 1 (64 / 125))).1,
          write_body sample_helpers
            (write_state sample_helpers { sample_light 0 1000 with inhibit_next_send_ := true }
              (sample_state 1 (64 / 125))).1 (sample_state 1 (64 / 125))) :=
  ⟨by norm_num [dimmer_listener, transitioning, sample_state, sample_light, sample_values,
      LightColorValues.is_on, dimmer_brightness, sample_helpers, to_int32, make_call,
      LightCall.set_brightness],
    by simp [write_state, sample_light],
    by
      have hvalue : (brightness_int (sample_light 0 1000) (1 * (64 / 125)) : Int) = 512 + 0 :=
        brightness_int_of_integral (sample_light 0 1000) (1 * (64 / 125)) 512 (by decide)
          (by decide) (by decide) (by decide) (by norm_num) (by norm_num)
          (by norm_num [sample_light])
      have hnat : brightness_int (sample_light 0 1000) (1 * (64 / 125)) = 512 := by omega
      have hwhite : white_writes (sample_light 0 1000)
          (extract (sample_light 0 1000) (sample_state 1 (64 / 125))) =
          [DatapointWrite.set_integer_datapoint_value 2 512] := by
        have hb : (extract (sample_light 0 1000) (sample_state 1 (64 / 125))).brightness =
            1 * (64 / 125) := rfl
        simp only [white_writes, hb, hnat]
        norm_num [sample_light]
      have hbody : write_body sample_helpers (sample_light 0 1000) (sample_state 1 (64 / 125)) =
          [DatapointWrite.set_integer_datapoint_value 2 512,
            DatapointWrite.set_boolean_datapoint_value 1 true] := by
        simp only [write_body, hwhite, sample_state_is_on]
        norm_num [color_writes, switch_writes, extract, sample_light, sample_state]
      simp only [write_state, hbody]
      simp [sample_light],
    (write_state_echo_suppression sample_helpers
      { sample_light 0 1000 with inhibit_next_send_ := true }
      (sample_state 1 (64 / 125)) (sample_state 1 (64 / 125))).2.2.2.2⟩

theorem switch_listener_at_rest (t : TuyaLight) (state : LightState) (datapoint : TuyaDatapoint)
    (hrest : state.current_values = state.remote_values) :
    switch_listener t state datapoint =
      ({ t with inhibit_next_send_ := true }, [make_call.set_state datapoint.value_bool]) := by
  simp [switch_listener, transitioning_of_eq state hrest]

theorem dimmer_listener_at_rest_on (h : Helpers) (t : TuyaLight) (state : LightState)
    (datapoint : TuyaDatapoint) (hrest : state.current_values = state.remote_values)
    (hon : state.current_values.is_on = true) :
    dimmer_listener h t state datapoint =
      ({ t with inhibit_next_send_ := true },
        [make_call.set_brightness
          (dimmer_brightness h t state.gamma_correct datapoint.value_uint)]) := by
  simp [dimmer_listener, transitioning_of_eq state hrest, hon]

theorem color_temperature_listener_at_rest (t : TuyaLight) (state : LightState)
    (datapoint : TuyaDatapoint) (hrest : state.current_values = state.remote_values) :
    (color_temperature_listener t state datapoint).1 = t ∧
      (color_temperature_listener t state datapoint).2.length = 1 := by
  simp [color_temperature_listener, transitioning_of_eq state hrest]

/-- C4: at a light at rest with the flag clear, the colour-temperature
listener (raw value 255) and the colour listener (payload FF0000) each issue
a light-state request and return the adapter with the echo-suppression flag
still clear, whereas the switch and dimmer listeners set it. -/
theorem color_and_temperature_listeners_leave_flag_clear :
    color_temperature_listener (sample_color_light false) (sample_state 1 1) ⟨255, false, []⟩ =
        (sample_color_light false, [make_call.set_color_temperature 500]) ∧
      color_listener sample_helpers (sample_color_light false) (sample_state 1 1)
          ⟨0, false, ['F', 'F', '0', '0', '0', '0']⟩ =
        some (sample_color_light false, [make_call.set_rgb 1 0 0]) ∧
      (sample_color_light false).inhibit_next_send_ = false ∧
      (switch_listener (sample_color_light false) (sample_state 1 1)
          ⟨0, true, []⟩).1.inhibit_next_send_ = true ∧
      (dimmer_listener sample_helpers (sample_color_light false) (sample_state 1 1)
          ⟨512, false, []⟩).1.inhibit_next_send_ = true := by
  have hFF : parse_hex 2 ['F', 'F'] = some 255 := by decide
  have h00 : parse_hex 2 ['0', '0'] = some 0 := by decide
  refine ⟨?_, ?_, rfl, ?_, ?_⟩
  · norm_num [color_temperature_listener, transitioning_of_eq (sample_state 1 1) rfl,
      sample_color_light, sample_light, make_call, LightCall.set_color_temperature]
  · simp [color_listener, transitioning_of_eq (sample_state 1 1) rfl, sample_color_light,
      sample_light, substr, hFF, h00, make_call, LightCall.set_rgb]
  · rw [switch_listener_at_rest _ _ _ rfl]
  · rw [dimmer_listener_at_rest_on _ _ _ _ rfl (sample_state_is_on 1)]

/-- C5: when the light is at rest (current values equal to the remote values)
and its current state is off, the dimmer listener returns the adapter
unchanged and issues no request, for every datapoint value. -/
theorem dimmer_listener_discards_when_off (h : Helpers) (t : TuyaLight) (state : LightState)
    (datapoint : TuyaDatapoint) (hrest : state.current_values = state.remote_values)
    (hoff : state.current_values.is_on = false) :
    dimmer_listener h t state datapoint = (t, []) := by
  simp [dimmer_listener, transitioning_of_eq state hrest, hoff]

theorem dimmer_listener_discards_when_off_witness :
    (sample_state 0 1).current_values = (sample_state 0 1).remote_values ∧
      (sample_state 0 1).current_values.is_on = false ∧
      dimmer_listener sample_helpers (sample_light 10 1000) (sample_state 0 1) ⟨512, false, []⟩ =
        (sample_light 10 1000, []) :=
  ⟨rfl, by simp [sample_state, sample_values, LightColorValues.is_on],
    dimmer_listener_discards_when_off sample_helpers (sample_light 10 1000) (sample_state 0 1)
      ⟨512, false, []⟩ rfl (by simp [sample_state, sample_values, LightColorValues.is_on])⟩

/-- C6: in a pass that is not suppressed, when the light state is off and a
switch datapoint is bound, `write_state` makes exactly one write, switch set
to false, whatever the other bindings, the interlock and the stored values. -/
theorem write_state_off_writes_switch_only (h : Helpers) (t : TuyaLight) (state : LightState)
    (id : Nat) (hflag : t.inhibit_next_send_ = false)
    (hoff : state.current_values.is_on = false) (hswitch : t.switch_id_ = some id) :
    write_state h t state = (t, [DatapointWrite.set_boolean_datapoint_value id false]) := by
  simp [write_state, write_body, hflag, hoff, hswitch]

theorem write_state_off_writes_switch_only_witness :
    (sample_color_light true).inhibit_next_send_ = false ∧
      (sample_state 0 1).current_values.is_on = false ∧
      (sample_color_light true).switch_id_ = some 1 ∧
      write_state sample_helpers (sample_color_light true) (sample_state 0 1) =
        (sample_color_light true, [DatapointWrite.set_boolean_datapoint_value 1 false]) :=
  ⟨rfl, by simp [sample_state, sample_values, LightColorValues.is_on], rfl,
    write_state_off_writes_switch_only sample_helpers (sample_color_light true) (sample_state 0 1)
      1 rfl (by simp [sample_state, sample_values, LightColorValues.is_on]) rfl⟩

theorem white_writes_gate (t : TuyaLight) (e : Extracted)
    (hany : (white_writes t e).any is_white_write = true) :
    0 < e.brightness ∨ t.color_interlock_ = false := by
  unfold white_writes at hany
  split at hany
  · assumption
  · simp at hany

theorem color_writes_gate (h : Helpers) (t : TuyaLight) (e : Extracted)
    (hany : (color_writes h t e).any is_color_write = true) :
    e.brightness = 0 ∨ t.color_interlock_ = false := by
  unfold color_writes at hany
  split at hany
  · split at hany
    · assumption
    · simp at hany
  · simp at hany

theorem white_writes_no_color (t : TuyaLight) (e : Extracted) :
    (white_writes t e).any is_color_write = false := by
  unfold white_writes
  split
  · cases t.color_temperature_id_ <;> cases t.dimmer_id_ <;> simp [is_color_write]
  · simp

theorem switch_writes_no_color (t : TuyaLight) (e : Extracted) :
    (switch_writes t e).any is_color_write = false := by
  unfold switch_writes
  cases t.switch_id_ <;> simp [is_color_write]

theorem color_writes_no_white (h : Helpers) (t : TuyaLight) (e : Extracted) :
    (color_writes h t e).any is_white_write = false := by
  unfold color_writes
  split
  · split <;> simp [is_white_write]
  · simp

theorem switch_writes_no_white (t : TuyaLight) (e : Extracted) :
    (switch_writes t e).any is_white_write = false := by
  unfold switch_writes
  cases t.switch_id_ <;> simp [is_white_write]

/-- The three shapes of the writes of a pass: nothing (suppressed), the off
shortcut, or the white group followed by the colour and the switch. -/
theorem write_state_writes (h : Helpers) (t : TuyaLight) (state : LightState) :
    (write_state h t state).2 = [] ∨
      (∃ id, (write_state h t state).2 = [DatapointWrite.set_boolean_datapoint_value id false]) ∨
      (write_state h t state).2 =
        white_writes t (extract t state) ++ color_writes h t (extract t state) ++
          switch_writes t (extract t state) := by
  unfold write_state
  split
  · exact Or.inl rfl
  · right
    simp only [write_body]
    split
    · exact Or.inl ⟨_, rfl⟩
    · exact Or.inr rfl

/-- C7: with the colour interlock set, no `write_state` pass contains both a
colour write and a white-group (colour-temperature or dimmer) write, for every
light state and every binding configuration. -/
theorem interlock_never_writes_both (h : Helpers) (t : TuyaLight) (state : LightState)
    (hinterlock : t.color_interlock_ = true) :
    ¬ ((write_state h t state).2.any is_color_write = true ∧
        (write_state h t state).2.any is_white_write = true) := by
  rintro ⟨hcolor, hwhite⟩
  rcases write_state_writes h t state with hw | ⟨id, hw⟩ | hw
  · rw [hw] at hcolor
    simp at hcolor
  · rw [hw] at hcolor
    simp [is_color_write] at hcolor
  · rw [hw] at hcolor hwhite
    simp only [List.any_append, Bool.or_eq_true, white_writes_no_color, switch_writes_no_color,
      color_writes_no_white, switch_writes_no_white, Bool.false_eq_true, false_or, or_false]
      at hcolor hwhite
    have hzero := color_writes_gate h t _ hcolor
    have hpos := white_writes_gate t _ hwhite
    simp only [hinterlock, Bool.true_eq_false, or_false] at hzero hpos
    rw [hzero] at hpos
    exact lt_irrefl _ hpos

theorem interlock_never_writes_both_witness :
    (sample_color_light true).color_interlock_ = true ∧
      ¬ ((write_state sample_helpers (sample_color_light true) (sample_state 1 1)).2.any
            is_color_write = true ∧
          (write_state sample_helpers (sample_color_light true) (sample_state 1 1)).2.any
            is_white_write = true) :=
  ⟨rfl, interlock_never_writes_both sample_helpers (sample_color_light true) (sample_state 1 1) rfl⟩

/-! ## Dimmer range arithmetic -/

/-- The affine image of a brightness in [0,1] lies between the two ends of
the range, and so does its ceiling. -/
theorem ceil_affine_bounds (m M : Int) (b : ℚ) (hb0 : 0 ≤ b) (hb1 : b ≤ 1) :
    min m M ≤ ⌈b * ((M - m : Int) : ℚ) + (m : ℚ)⌉ ∧
      ⌈b * ((M - m : Int) : ℚ) + (m : ℚ)⌉ ≤ max m M := by
  have hcast : ((M - m : Int) : ℚ) = (M : ℚ) - (m : ℚ) := by push_cast; ring
  rw [hcast]
  rcases le_total m M with hle | hle
  · have hq : (m : ℚ) ≤ (M : ℚ) := by exact_mod_cast hle
    rw [min_eq_left hle, max_eq_right hle]
    constructor
    · have hx : (m : ℚ) ≤ b * ((M : ℚ) - m) + m := by nlinarith
      exact_mod_cast le_trans hx (Int.le_ceil _)
    · rw [Int.ceil_le]
      nlinarith
  · have hq : (M : ℚ) ≤ (m : ℚ) := by exact_mod_cast hle
    rw [min_eq_right hle, max_eq_left hle]
    constructor
    · have hx : (M : ℚ) ≤ b * ((M : ℚ) - m) + m := by nlinarith
      exact_mod_cast le_trans hx (Int.le_ceil _)
    · rw [Int.ceil_le]
      nlinarith

/-- Within the non-negative `int32_t` range the dimmer value of a non-zero
brightness is the ceiling of the affine map, with no wrap-around. -/
theorem brightness_int_exact_eq_ceil (t : TuyaLight) (b : ℚ)
    (hmin0 : 0 ≤ t.min_value_) (hmin1 : t.min_value_ < 2147483648)
    (hmax0 : 0 ≤ t.max_value_) (hmax1 : t.max_value_ < 2147483648)
    (hb0 : 0 < b) (hb1 : b ≤ 1) :
    (brightness_int_exact t b : Int) =
      ⌈b * ((t.max_value_ - t.min_value_ : Int) : ℚ) + (t.min_value_ : ℚ)⌉ := by
  have hd : to_int32 (t.max_value_ - t.min_value_) = t.max_value_ - t.min_value_ :=
    to_int32_of_range _ (by omega) (by omega)
  have hbounds := ceil_affine_bounds t.min_value_ t.max_value_ b hb0.le hb1
  have hlo : 0 ≤ min t.min_value_ t.max_value_ := le_min hmin0 hmax0
  have hhi : max t.min_value_ t.max_value_ < 2147483648 := max_lt hmin1 hmax1
  simp only [brightness_int_exact, brightness_int_with, hd, ne_eq, hb0.ne', not_false_eq_true,
    decide_True, if_true]
  exact to_uint32_of_range _ (by omega) (by omega)

theorem brightness_int_exact_zero (t : TuyaLight) : brightness_int_exact t 0 = 0 := by
  simp [brightness_int_exact, brightness_int_with]

theorem brightness_int_zero (t : TuyaLight) : brightness_int t 0 = 0 := by
  simp [brightness_int, brightness_int_with]

/-- In a pass that is neither suppressed nor ended by the off shortcut, and
whose white group is written, the dimmer write carries `brightness_int` of the
extracted brightness. -/
theorem write_state_dimmer_mem (h : Helpers) (t : TuyaLight) (state : LightState) (id : Nat)
    (hflag : t.inhibit_next_send_ = false) (hdimmer : t.dimmer_id_ = some id)
    (hon : state.current_values.is_on = true ∨ t.switch_id_ = none)
    (hgate : 0 < (extract t state).brightness ∨ t.color_interlock_ = false) :
    DatapointWrite.set_integer_datapoint_value id (brightness_int t (extract t state).brightness) ∈
      (write_state h t state).2 := by
  have hbody : write_body h t state =
      white_writes t (extract t state) ++ color_writes h t (extract t state) ++
        switch_writes t (extract t state) := by
    simp only [write_body]
    rcases hon with hon | hon
    · rw [hon]
    · rw [hon]
      cases state.current_values.is_on <;> rfl
  have hwhite : DatapointWrite.set_integer_datapoint_value id
      (brightness_int t (extract t state).brightness) ∈ white_writes t (extract t state) := by
    simp [white_writes, hgate, hdimmer]
  simp only [write_state, hflag, Bool.false_eq_true, if_false, hbody]
  exact List.mem_append_left _ (List.mem_append_left _ hwhite)

/-- C10 (as the code has it): for a range of non-negative device units of at
most 2^24 (the integers that `float` holds exactly), in either direction, and
every brightness b with 0 < b ≤ 1, a pass that writes the white group writes
the dimmer value `brightness_int`, computed in `float`, which lies in
[min(min_value,max_value), max(min_value,max_value)] and is max_value at b = 1;
a brightness of exactly 0 is written as 0. -/
theorem write_state_dimmer_in_range (h : Helpers) (t : TuyaLight) (state : LightState) (id : Nat)
    (hmin0 : 0 ≤ t.min_value_) (hmin1 : t.min_value_ ≤ 16777216)
    (hmax0 : 0 ≤ t.max_value_) (hmax1 : t.max_value_ ≤ 16777216)
    (hflag : t.inhibit_next_send_ = false) (hdimmer : t.dimmer_id_ = some id)
    (hon : state.current_values.is_on = true ∨ t.switch_id_ = none)
    (hb0 : 0 < (extract t state).brightness) (hb1 : (extract t state).brightness ≤ 1) :
    DatapointWrite.set_integer_datapoint_value id (brightness_int t (extract t state).brightness) ∈
        (write_state h t state).2 ∧
      min t.min_value_ t.max_value_ ≤ (brightness_int t (extract t state).brightness : Int) ∧
      (brightness_int t (extract t state).brightness : Int) ≤ max t.min_value_ t.max_value_ ∧
      ((extract t state).brightness = 1 →
        (brightness_int t (extract t state).brightness : Int) = t.max_value_) ∧
      brightness_int t 0 = 0 := by
  have hceil := brightness_int_eq_ceil t _ hmin0 hmin1 hmax0 hmax1 hb0 hb1
  have hbounds := float_ceil_affine_bounds t.min_value_ t.max_value_ _ hmin0 hmin1 hmax0 hmax1
    hb0.le hb1
  refine ⟨write_state_dimmer_mem h t state id hflag hdimmer hon (Or.inl hb0), ?_, ?_, ?_,
    brightness_int_zero t⟩
  · rw [hceil]
    exact hbounds.1
  · rw [hceil]
    exact hbounds.2.1
  · intro hone
    rw [hceil]
    exact hbounds.2.2 hone

theorem write_state_dimmer_in_range_witness :
    DatapointWrite.set_integer_datapoint_value 2
        (brightness_int (sample_light 1000 10) (extract (sample_light 1000 10)
          (sample_state 1 1)).brightness) ∈
        (write_state sample_helpers (sample_light 1000 10) (sample_state 1 1)).2 ∧
      min (sample_light 1000 10).min_value_ (sample_light 1000 10).max_value_ ≤
        (brightness_int (sample_light 1000 10)
          (extract (sample_light 1000 10) (sample_state 1 1)).brightness : Int) ∧
      (brightness_int (sample_light 1000 10)
          (extract (sample_light 1000 10) (sample_state 1 1)).brightness : Int) ≤
        max (sample_light 1000 10).min_value_ (sample_light 1000 10).max_value_ ∧
      ((extract (sample_light 1000 10) (sample_state 1 1)).brightness = 1 →
        (brightness_int (sample_light 1000 10)
          (extract (sample_light 1000 10) (sample_state 1 1)).brightness : Int) =
          (sample_light 1000 10).max_value_) ∧
      brightness_int (sample_light 1000 10) 0 = 0 :=
  write_state_dimmer_in_range sample_helpers (sample_light 1000 10) (sample_state 1 1) 2
    (by decide) (by decide) (by decide) (by decide) rfl rfl (Or.inl (sample_state_is_on 1))
    (by norm_num [extract, sample_light, sample_state])
    (by norm_num [extract, sample_light, sample_state])

/-- The value 16777217 is not a binary32 value: it is rounded to 16777216. -/
theorem float32_round_two_pow_24_succ : float32_round 16777217 = 16777216 := by
  have hlog : Int.log 2 (16777217 : ℚ) = 24 := by
    have h := Int.log_natCast (R := ℚ) 2 16777217
    have hn : Nat.log 2 16777217 = 24 :=
      Nat.log_eq_of_pow_le_of_lt_pow (by norm_num) (by norm_num)
    rw [hn] at h
    exact_mod_cast h
  have hfloor : ⌊(16777217 : ℚ) / 2⌋ = 8388608 := by
    rw [Int.floor_eq_iff]
    constructor <;> norm_num
  have hpos : (0 : ℚ) ≤ 16777217 := by norm_num
  simp only [float32_round, hpos, if_true]
  rw [float32_round_nonneg_eq _ (by norm_num), hlog]
  have hulp : (2 : ℚ) ^ (max (24 : Int) (-126) - 23) = 2 := by norm_num
  rw [hulp]
  have hrne : round_half_even ((16777217 : ℚ) / 2) = 8388608 := by
    simp only [round_half_even, hfloor]
    norm_num
  rw [hrne]
  norm_num

/-- C10 fails in two ways.  At brightness 0 over a range that does not start at
0: the dimmer-only light with range 10..1000, switched off, extracts
brightness 0 and writes dimmer value 0, which is neither min_value (10) nor
inside [10, 1000].  And at brightness 1 over a range beyond the integers that
`float` holds exactly: with range 0..16777217 the value written is 16777216,
not max_value. -/
theorem write_state_dimmer_zero_below_range :
    (extract (sample_dimmer_only 10 1000) (sample_state 0 1)).brightness = 0 ∧
      write_state sample_helpers (sample_dimmer_only 10 1000) (sample_state 0 1) =
        (sample_dimmer_only 10 1000, [DatapointWrite.set_integer_datapoint_value 2 0]) ∧
      ((0 : Nat) : Int) ≠ (sample_dimmer_only 10 1000).min_value_ ∧
      ¬ (min (sample_dimmer_only 10 1000).min_value_ (sample_dimmer_only 10 1000).max_value_ ≤
          ((0 : Nat) : Int)) ∧
      brightness_int (sample_dimmer_only 0 16777217) 1 = 16777216 ∧
      ((16777216 : Nat) : Int) ≠ (sample_dimmer_only 0 16777217).max_value_ := by
  refine ⟨?_, ?_, by decide, by decide, ?_, by decide⟩
  · norm_num [extract, sample_dimmer_only, sample_light, sample_state]
  · have hzero : (extract (sample_dimmer_only 10 1000) (sample_state 0 1)).brightness = 0 := by
      norm_num [extract, sample_dimmer_only, sample_light, sample_state]
    have hwhite : white_writes (sample_dimmer_only 10 1000)
        (extract (sample_dimmer_only 10 1000) (sample_state 0 1)) =
        [DatapointWrite.set_integer_datapoint_value 2 0] := by
      simp only [white_writes, hzero, brightness_int_zero]
      simp [sample_dimmer_only, sample_light]
    have hbody : write_body sample_helpers (sample_dimmer_only 10 1000) (sample_state 0 1) =
        [DatapointWrite.set_integer_datapoint_value 2 0] := by
      simp only [write_body, hwhite]
      simp [color_writes, switch_writes, sample_dimmer_only, sample_light,
        sample_state_is_off]
    simp only [write_state, hbody]
    simp [sample_dimmer_only, sample_light]
  · have hd : to_int32 ((16777217 : Int) - 0) = 16777217 := by decide
    have h0 : float32_round ((0 : Int) : ℚ) = ((0 : Int) : ℚ) :=
      float32_round_intCast 0 (by decide) (by decide)
    have h1 : float32_round ((16777216 : Int) : ℚ) = ((16777216 : Int) : ℚ) :=
      float32_round_intCast 16777216 (by decide) (by decide)
    simp only [Int.cast_zero, Int.cast_ofNat] at h0 h1
    simp only [brightness_int, brightness_int_with, sample_dimmer_only, sample_light, hd,
      Int.cast_ofNat, Int.cast_zero, float32_round_two_pow_24_succ, one_mul, h1, h0, add_zero]
    norm_num [to_uint32]
    rfl

/-- Without gamma correction and within the non-negative `int32_t` range the
inbound dimmer conversion is free of wrap-around: the clipped value is
normalised against min_value and max_value, and a result of 0 over a range
with positive lower bound is replaced by 1/(upper-lower). -/
theorem dimmer_brightness_exact (h : Helpers) (t : TuyaLight) (raw : Nat)
    (hmin0 : 0 ≤ t.min_value_) (hmin1 : t.min_value_ < 2147483648)
    (hmax0 : 0 ≤ t.max_value_) (hmax1 : t.max_value_ < 2147483648)
    (hpow : ∀ x, h.powf x 1 = x) (value : Int)
    (hvalue : value = min (max t.min_value_ t.max_value_)
      (max (min t.min_value_ t.max_value_) (to_int32 (raw : Int)))) :
    dimmer_brightness h t 1 raw =
      if 0 < min t.min_value_ t.max_value_ ∧
          ((value : ℚ) - t.min_value_) / ((t.max_value_ : ℚ) - t.min_value_) = 0 then
        1 / (((max t.min_value_ t.max_value_ : Int) : ℚ) - ((min t.min_value_ t.max_value_ : Int) : ℚ))
      else ((value : ℚ) - t.min_value_) / ((t.max_value_ : ℚ) - t.min_value_) := by
  have hlo : min t.min_value_ t.max_value_ ≤ value := by
    rw [hvalue]
    exact le_min (min_le_max) (le_max_left _ _)
  have hhi : value ≤ max t.min_value_ t.max_value_ := by
    rw [hvalue]
    exact min_le_left _ _
  have hL0 : 0 ≤ min t.min_value_ t.max_value_ := le_min hmin0 hmax0
  have hL1 : min t.min_value_ t.max_value_ ≤ max t.min_value_ t.max_value_ := min_le_max
  have hU1 : max t.min_value_ t.max_value_ < 2147483648 := max_lt hmin1 hmax1
  have h1 : to_int32 (value - t.min_value_) = value - t.min_value_ :=
    to_int32_of_range _ (by omega) (by omega)
  have h2 : to_int32 (t.max_value_ - t.min_value_) = t.max_value_ - t.min_value_ :=
    to_int32_of_range _ (by omega) (by omega)
  have h3 : to_int32 (max t.min_value_ t.max_value_ - min t.min_value_ t.max_value_) =
      max t.min_value_ t.max_value_ - min t.min_value_ t.max_value_ :=
    to_int32_of_range _ (by omega) (by omega)
  simp only [dimmer_brightness, ← hvalue, h1, h2, h3, one_div_one, hpow, gt_iff_lt]
  push_cast
  rfl

/-- C9 (as the code has it): over a range of non-negative device units with
min_value ≠ max_value and positive lower clip bound, without gamma correction,
a dimmer update received while the light is on and at rest sets the flag and
applies a brightness that is never 0, for every raw `uint32_t` value.  A raw
value of 2^31 or more is negative after the cast to `int32_t` and is treated
like a raw value at or below the lower bound.  When the range is not inverted
such a raw value applies exactly 1/(upper-lower); when the range is inverted
it applies 1, and it is a raw value at or above the upper bound and below 2^31
that applies 1/(upper-lower). -/
theorem dimmer_listener_floor_brightness (h : Helpers) (t : TuyaLight) (state : LightState)
    (datapoint : TuyaDatapoint)
    (hmin1 : t.min_value_ < 2147483648) (hmax1 : t.max_value_ < 2147483648)
    (hne : t.min_value_ ≠ t.max_value_) (hlower : 0 < min t.min_value_ t.max_value_)
    (hpow : ∀ x, h.powf x 1 = x) (hgamma : state.gamma_correct = 1)
    (hrest : state.current_values = state.remote_values)
    (hon : state.current_values.is_on = true)
    (hraw32 : datapoint.value_uint < 4294967296) :
    dimmer_listener h t state datapoint =
        ({ t with inhibit_next_send_ := true },
          [make_call.set_brightness (dimmer_brightness h t 1 datapoint.value_uint)]) ∧
      dimmer_brightness h t 1 datapoint.value_uint ≠ 0 ∧
      (t.min_value_ < t.max_value_ →
        ((datapoint.value_uint : Int) ≤ min t.min_value_ t.max_value_ ∨
          2147483648 ≤ datapoint.value_uint) →
        dimmer_brightness h t 1 datapoint.value_uint =
          1 / (((max t.min_value_ t.max_value_ : Int) : ℚ) -
            ((min t.min_value_ t.max_value_ : Int) : ℚ))) ∧
      (t.max_value_ < t.min_value_ →
        ((datapoint.value_uint : Int) ≤ min t.min_value_ t.max_value_ ∨
          2147483648 ≤ datapoint.value_uint) →
        dimmer_brightness h t 1 datapoint.value_uint = 1) ∧
      (t.max_value_ < t.min_value_ →
        max t.min_value_ t.max_value_ ≤ (datapoint.value_uint : Int) →
        (datapoint.value_uint : Int) < 2147483648 →
        dimmer_brightness h t 1 datapoint.value_uint =
          1 / (((max t.min_value_ t.max_value_ : Int) : ℚ) -
            ((min t.min_value_ t.max_value_ : Int) : ℚ))) := by
  have hmin0 : 0 ≤ t.min_value_ := le_trans hlower.le (min_le_left _ _)
  have hmax0 : 0 ≤ t.max_value_ := le_trans hlower.le (min_le_right _ _)
  have hraw0 : (0 : Int) ≤ (datapoint.value_uint : Int) := Int.ofNat_nonneg _
  have hwidth : (((max t.min_value_ t.max_value_ : Int) : ℚ) -
      ((min t.min_value_ t.max_value_ : Int) : ℚ)) ≠ 0 := by
    have hlt : min t.min_value_ t.max_value_ < max t.min_value_ t.max_value_ :=
      min_lt_max.mpr hne
    have hq : ((min t.min_value_ t.max_value_ : Int) : ℚ) <
        ((max t.min_value_ t.max_value_ : Int) : ℚ) := by exact_mod_cast hlt
    exact (sub_pos.mpr hq).ne'
  have hlow : ((datapoint.value_uint : Int) ≤ min t.min_value_ t.max_value_ ∨
      2147483648 ≤ datapoint.value_uint) →
      to_int32 (datapoint.value_uint : Int) ≤ min t.min_value_ t.max_value_ := by
    rintro (hle | hbig)
    · rw [to_int32_of_range _ (by omega) (by omega)]
      exact hle
    · unfold to_int32
      omega
  refine ⟨?_, ?_, ?_, ?_, ?_⟩
  · rw [dimmer_listener_at_rest_on h t state datapoint hrest hon, hgamma]
  · rw [dimmer_brightness_exact h t datapoint.value_uint hmin0 hmin1 hmax0 hmax1 hpow _ rfl]
    split_ifs with hc
    · exact one_div_ne_zero hwidth
    · exact fun hz => hc ⟨hlower, hz⟩
  · intro hdir hraw
    have hcast := hlow hraw
    have hv : t.min_value_ = min (max t.min_value_ t.max_value_)
        (max (min t.min_value_ t.max_value_) (to_int32 (datapoint.value_uint : Int))) := by
      omega
    rw [dimmer_brightness_exact h t datapoint.value_uint hmin0 hmin1 hmax0 hmax1 hpow _ hv]
    simp [hlower]
  · intro hdir hraw
    have hcast := hlow hraw
    have hv : t.max_value_ = min (max t.min_value_ t.max_value_)
        (max (min t.min_value_ t.max_value_) (to_int32 (datapoint.value_uint : Int))) := by
      omega
    have hd : (t.max_value_ : ℚ) - (t.min_value_ : ℚ) ≠ 0 := by
      have hq : (t.max_value_ : ℚ) < (t.min_value_ : ℚ) := by exact_mod_cast hdir
      exact (sub_neg.mpr hq).ne
    rw [dimmer_brightness_exact h t datapoint.value_uint hmin0 hmin1 hmax0 hmax1 hpow _ hv]
    rw [div_self hd]
    simp
  · intro hdir hraw hraw1
    have hv : t.min_value_ = min (max t.min_value_ t.max_value_)
        (max (min t.min_value_ t.max_value_) (to_int32 (datapoint.value_uint : Int))) := by
      rw [to_int32_of_range _ (by omega) (by omega)]
      omega
    rw [dimmer_brightness_exact h t datapoint.value_uint hmin0 hmin1 hmax0 hmax1 hpow _ hv]
    simp [hlower]

theorem dimmer_listener_floor_brightness_witness :
    dimmer_listener sample_helpers (sample_light 10 1000) (sample_state 1 1) ⟨7, false, []⟩ =
        ({ sample_light 10 1000 with inhibit_next_send_ := true },
          [make_call.set_brightness (1 / 990)]) ∧
      dimmer_brightness sample_helpers (sample_light 10 1000) 1 7 ≠ 0 :=
  have hfloor := dimmer_listener_floor_brightness sample_helpers (sample_light 10 1000)
    (sample_state 1 1) ⟨7, false, []⟩ (by decide) (by decide) (by decide) (by decide)
    (fun _ => rfl) rfl rfl (sample_state_is_on 1) (by decide)
  ⟨by
    rw [hfloor.1, hfloor.2.2.1 (by decide) (Or.inl (by decide))]
    norm_num [sample_light], hfloor.2.1⟩

/-- C9 fails over an inverted range: with min_value 1000 and max_value 10 the
lower clip bound is 10 > 0, and a raw value 10 received while the light is on
and at rest applies brightness 1, not 1/(1000-10). -/
theorem dimmer_listener_inverted_lower_bound :
    dimmer_listener sample_helpers (sample_light 1000 10) (sample_state 1 1) ⟨10, false, []⟩ =
        ({ sample_light 1000 10 with inhibit_next_send_ := true },
          [make_call.set_brightness 1]) ∧
      (1 : ℚ) ≠ 1 / (((max (sample_light 1000 10).min_value_ (sample_light 1000 10).max_value_ : Int) : ℚ) -
        ((min (sample_light 1000 10).min_value_ (sample_light 1000 10).max_value_ : Int) : ℚ)) := by
  constructor
  · rw [dimmer_listener_at_rest_on _ _ _ _ rfl (sample_state_is_on 1)]
    norm_num [dimmer_brightness, sample_light, sample_state, sample_helpers, to_int32]
  · norm_num [sample_light]

/-- C8 (as the code has it): over a range of non-negative device units with
min_value ≠ max_value, without gamma correction and in exact arithmetic, the
inbound conversion of the outbound dimmer value of a brightness b in [0,1] is
within 1/|max_value - min_value| of b, for every b when the range is not
inverted and for every b > 0 when it is inverted. -/
theorem brightness_round_trip (h : Helpers) (t : TuyaLight) (b : ℚ)
    (hmin0 : 0 ≤ t.min_value_) (hmin1 : t.min_value_ < 2147483648)
    (hmax0 : 0 ≤ t.max_value_) (hmax1 : t.max_value_ < 2147483648)
    (hne : t.min_value_ ≠ t.max_value_) (hpow : ∀ x, h.powf x 1 = x)
    (hb0 : 0 ≤ b) (hb1 : b ≤ 1) (hdir : t.min_value_ < t.max_value_ ∨ 0 < b) :
    |dimmer_brightness h t 1 (brightness_int_exact t b) - b| ≤
      1 / |(t.max_value_ : ℚ) - (t.min_value_ : ℚ)| := by
  have hD : (t.max_value_ : ℚ) - (t.min_value_ : ℚ) ≠ 0 := by
    intro hz
    apply hne
    have : (t.min_value_ : ℚ) = (t.max_value_ : ℚ) := by linarith
    exact_mod_cast this
  have hDpos : 0 < |(t.max_value_ : ℚ) - (t.min_value_ : ℚ)| := abs_pos.mpr hD
  rcases hb0.eq_or_lt with hzero | hpos
  · -- brightness 0: the value written is 0, clipped to the lower bound
    subst hzero
    have hlt : t.min_value_ < t.max_value_ := by
      rcases hdir with hlt | hlt
      · exact hlt
      · exact absurd hlt (lt_irrefl _)
    have hv : t.min_value_ = min (max t.min_value_ t.max_value_)
        (max (min t.min_value_ t.max_value_) (to_int32 ((brightness_int_exact t 0 : Nat) : Int))) := by
      rw [brightness_int_exact_zero, to_int32_of_range _ (by simp) (by simp)]
      simp only [Nat.cast_zero]
      omega
    rw [dimmer_brightness_exact h t _ hmin0 hmin1 hmax0 hmax1 hpow _ hv]
    have hq : (t.min_value_ : ℚ) < (t.max_value_ : ℚ) := by exact_mod_cast hlt
    simp only [sub_self, zero_div, and_true, sub_zero, max_eq_right hlt.le, min_eq_left hlt.le]
    split_ifs with hc
    · rw [abs_of_pos (one_div_pos.mpr (sub_pos.mpr hq)), abs_of_pos (sub_pos.mpr hq)]
    · simp only [abs_zero]
      exact (one_div_pos.mpr hDpos).le
  · -- brightness above 0: the value written is the ceiling of the affine map
    have hceil := brightness_int_exact_eq_ceil t b hmin0 hmin1 hmax0 hmax1 hpos hb1
    have hbounds := ceil_affine_bounds t.min_value_ t.max_value_ b hb0 hb1
    have hx1 := Int.le_ceil (b * ((t.max_value_ - t.min_value_ : Int) : ℚ) + (t.min_value_ : ℚ))
    have hx2 := Int.ceil_lt_add_one
      (b * ((t.max_value_ - t.min_value_ : Int) : ℚ) + (t.min_value_ : ℚ))
    rw [← hceil] at hbounds hx1 hx2
    push_cast at hx1 hx2
    have hv : ((brightness_int_exact t b : Nat) : Int) = min (max t.min_value_ t.max_value_)
        (max (min t.min_value_ t.max_value_) (to_int32 ((brightness_int_exact t b : Nat) : Int))) := by
      rw [to_int32_of_range _ (by omega) (by omega)]
      omega
    rw [dimmer_brightness_exact h t _ hmin0 hmin1 hmax0 hmax1 hpow _ hv]
    simp only [Int.cast_natCast]
    split_ifs with hc
    · -- the substituted smallest step
      obtain ⟨hlower, hz⟩ := hc
      have hvm : ((brightness_int_exact t b : Nat) : ℚ) = (t.min_value_ : ℚ) := by
        rcases div_eq_zero_iff.mp hz with hz' | hz'
        · linarith
        · exact absurd hz' hD
      rw [hvm] at hx1 hx2
      have hinv : t.max_value_ < t.min_value_ := by
        rcases lt_or_gt_of_ne hne with hlt | hlt
        · exfalso
          have hq : (t.min_value_ : ℚ) < (t.max_value_ : ℚ) := by exact_mod_cast hlt
          have hprod := mul_pos hpos (sub_pos.mpr hq)
          linarith
        · exact hlt
      have hq : (t.max_value_ : ℚ) < (t.min_value_ : ℚ) := by exact_mod_cast hinv
      rw [max_eq_left hinv.le, min_eq_right hinv.le, abs_of_neg (sub_neg.mpr hq), neg_sub]
      have hw : (0 : ℚ) < (t.min_value_ : ℚ) - (t.max_value_ : ℚ) := sub_pos.mpr hq
      have hsmall : b < 1 / ((t.min_value_ : ℚ) - (t.max_value_ : ℚ)) := by
        rw [lt_div_iff₀ hw]
        linarith
      rw [abs_of_pos (by linarith)]
      linarith
    · -- the plain quotient
      have hquot : (((brightness_int_exact t b : Nat) : ℚ) - (t.min_value_ : ℚ)) /
            ((t.max_value_ : ℚ) - (t.min_value_ : ℚ)) - b =
          (((brightness_int_exact t b : Nat) : ℚ) -
            (b * ((t.max_value_ : ℚ) - (t.min_value_ : ℚ)) + (t.min_value_ : ℚ))) /
            ((t.max_value_ : ℚ) - (t.min_value_ : ℚ)) := by
        field_simp
        ring
      rw [hquot, abs_div]
      apply div_le_div_of_nonneg_right _ hDpos.le
      rw [abs_le]
      constructor <;> linarith

theorem brightness_round_trip_witness :
    |dimmer_brightness sample_helpers (sample_light 1000 10) 1
        (brightness_int_exact (sample_light 1000 10) (1 / 3)) - 1 / 3| ≤
      1 / |((sample_light 1000 10).max_value_ : ℚ) - ((sample_light 1000 10).min_value_ : ℚ)| :=
  brightness_round_trip sample_helpers (sample_light 1000 10) (1 / 3) (by decide) (by decide)
    (by decide) (by decide) (by decide) (fun _ => rfl) (by norm_num) (by norm_num)
    (Or.inr (by norm_num))

/-- C8 fails at brightness 0 over an inverted range: with min_value 1000 and
max_value 0 the outbound conversion writes 0 and the inbound conversion of 0
is brightness 1, at distance 1 from 0, more than the step 1/1000. -/
theorem brightness_round_trip_inverted_zero :
    brightness_int_exact (sample_light 1000 0) 0 = 0 ∧
      dimmer_brightness sample_helpers (sample_light 1000 0) 1
        (brightness_int_exact (sample_light 1000 0) 0) = 1 ∧
      ¬ (|dimmer_brightness sample_helpers (sample_light 1000 0) 1
            (brightness_int_exact (sample_light 1000 0) 0) - 0| ≤
          1 / |((sample_light 1000 0).max_value_ : ℚ) - ((sample_light 1000 0).min_value_ : ℚ)|) := by
  have hz : brightness_int_exact (sample_light 1000 0) 0 = 0 := brightness_int_exact_zero _
  have hone : dimmer_brightness sample_helpers (sample_light 1000 0) 1
      (brightness_int_exact (sample_light 1000 0) 0) = 1 := by
    rw [hz]
    norm_num [dimmer_brightness, sample_light, sample_helpers, to_int32]
  refine ⟨hz, hone, ?_⟩
  rw [hone]
  norm_num [sample_light]

/-! ## Colour temperature, clipping and the final switch write -/

/-- A convex combination of the two colour-temperature endpoints lies between
them, whichever is the larger. -/
theorem affine_between (cold warm s : ℚ) (hs0 : 0 ≤ s) (hs1 : s ≤ 1) :
    min cold warm ≤ cold + (warm - cold) * s ∧ cold + (warm - cold) * s ≤ max cold warm := by
  rcases le_total cold warm with hle | hle
  · rw [min_eq_left hle, max_eq_right hle]
    have h1 : 0 ≤ (warm - cold) * s := mul_nonneg (sub_nonneg.mpr hle) hs0
    have h2 : 0 ≤ (warm - cold) * (1 - s) := mul_nonneg (sub_nonneg.mpr hle) (sub_nonneg.mpr hs1)
    constructor <;> linarith
  · rw [min_eq_right hle, max_eq_left hle]
    have h1 : 0 ≤ (cold - warm) * s := mul_nonneg (sub_nonneg.mpr hle) hs0
    have h2 : 0 ≤ (cold - warm) * (1 - s) := mul_nonneg (sub_nonneg.mpr hle) (sub_nonneg.mpr hs1)
    constructor <;> linarith

/-- The `uint32_t` subtraction `max - x` does not wrap when `x ≤ max`. -/
theorem to_uint32_sub_of_le (cmax x : Nat) (hmax : cmax < 4294967296) (hx : x ≤ cmax) :
    to_uint32 ((cmax : Int) - (x : Int)) = cmax - x := by
  have h := to_uint32_of_range ((cmax : Int) - (x : Int)) (by omega) (by omega)
  omega

/-- C13: for a raw value in [0, color_temperature_max_value] with a positive
maximum, the colour-temperature listener of a light at rest requests
cold + (warm - cold) * v / max, with v the raw value, or max - raw under
inversion; the request lies between cold and warm, raw 0 gives cold (warm if
inverted) and raw max gives warm (cold if inverted). -/
theorem color_temperature_listener_mapping (t : TuyaLight) (state : LightState)
    (datapoint : TuyaDatapoint) (hrest : state.current_values = state.remote_values)
    (hmax0 : 0 < t.color_temperature_max_value_)
    (hmax1 : t.color_temperature_max_value_ < 4294967296)
    (hraw : datapoint.value_uint ≤ t.color_temperature_max_value_) :
    ∃ v request : ℚ,
      v = (if t.color_temperature_invert_ = true then
            (t.color_temperature_max_value_ : ℚ) - (datapoint.value_uint : ℚ)
          else (datapoint.value_uint : ℚ)) ∧
      request = t.cold_white_temperature_ +
        (t.warm_white_temperature_ - t.cold_white_temperature_) * v /
          (t.color_temperature_max_value_ : ℚ) ∧
      color_temperature_listener t state datapoint =
        (t, [make_call.set_color_temperature request]) ∧
      min t.cold_white_temperature_ t.warm_white_temperature_ ≤ request ∧
      request ≤ max t.cold_white_temperature_ t.warm_white_temperature_ ∧
      (datapoint.value_uint = 0 →
        request = if t.color_temperature_invert_ = true then t.warm_white_temperature_
          else t.cold_white_temperature_) ∧
      (datapoint.value_uint = t.color_temperature_max_value_ →
        request = if t.color_temperature_invert_ = true then t.cold_white_temperature_
          else t.warm_white_temperature_) := by
  have hq0 : (0 : ℚ) < (t.color_temperature_max_value_ : ℚ) := by exact_mod_cast hmax0
  have hqraw : (datapoint.value_uint : ℚ) ≤ (t.color_temperature_max_value_ : ℚ) := by
    exact_mod_cast hraw
  have hraw0 : (0 : ℚ) ≤ (datapoint.value_uint : ℚ) := Nat.cast_nonneg _
  refine ⟨_, _, rfl, rfl, ?_, ?_⟩
  · cases hinv : t.color_temperature_invert_
    · simp [color_temperature_listener, transitioning_of_eq state hrest, hinv, mul_div_assoc]
    · simp [color_temperature_listener, transitioning_of_eq state hrest, hinv, mul_div_assoc,
        to_uint32_sub_of_le _ _ hmax1 hraw, Nat.cast_sub hraw]
  · cases hinv : t.color_temperature_invert_
    · simp only [Bool.false_eq_true, if_false]
      have hs0 : (0 : ℚ) ≤ (datapoint.value_uint : ℚ) / (t.color_temperature_max_value_ : ℚ) :=
        div_nonneg hraw0 hq0.le
      have hs1 : (datapoint.value_uint : ℚ) / (t.color_temperature_max_value_ : ℚ) ≤ 1 :=
        (div_le_one hq0).mpr hqraw
      have hb := affine_between t.cold_white_temperature_ t.warm_white_temperature_ _ hs0 hs1
      rw [mul_div_assoc]
      refine ⟨hb.1, hb.2, ?_, ?_⟩
      · intro hz
        simp [hz]
      · intro hz
        rw [hz, div_self hq0.ne']
        ring
    · simp only [if_true]
      have hs0 : (0 : ℚ) ≤ ((t.color_temperature_max_value_ : ℚ) - (datapoint.value_uint : ℚ)) /
          (t.color_temperature_max_value_ : ℚ) := div_nonneg (sub_nonneg.mpr hqraw) hq0.le
      have hs1 : ((t.color_temperature_max_value_ : ℚ) - (datapoint.value_uint : ℚ)) /
          (t.color_temperature_max_value_ : ℚ) ≤ 1 := (div_le_one hq0).mpr (by linarith)
      have hb := affine_between t.cold_white_temperature_ t.warm_white_temperature_ _ hs0 hs1
      rw [mul_div_assoc]
      refine ⟨hb.1, hb.2, ?_, ?_⟩
      · intro hz
        rw [hz]
        simp only [Nat.cast_zero, sub_zero]
        rw [div_self hq0.ne']
        ring
      · intro hz
        simp [hz]

theorem color_temperature_listener_mapping_witness :
    (sample_state 1 1).current_values = (sample_state 1 1).remote_values ∧
      0 < sample_inverted_temperature_light.color_temperature_max_value_ ∧
      (51 : Nat) ≤ sample_inverted_temperature_light.color_temperature_max_value_ ∧
      color_temperature_listener sample_inverted_temperature_light (sample_state 1 1)
          ⟨51, false, []⟩ =
        (sample_inverted_temperature_light, [make_call.set_color_temperature (2153 / 5)]) := by
  obtain ⟨v, request, hv, hrequest, hcall, -⟩ :=
    color_temperature_listener_mapping sample_inverted_temperature_light (sample_state 1 1)
      ⟨51, false, []⟩ rfl (by decide) (by decide) (by decide)
  refine ⟨rfl, by decide, by decide, ?_⟩
  rw [hcall, hrequest, hv]
  norm_num [sample_inverted_temperature_light, sample_color_light, sample_light]

/-- The brightness of the dimmer listener is computed from `clipped_value`. -/
theorem dimmer_brightness_eq_clipped (h : Helpers) (t : TuyaLight) (gamma : ℚ) (raw : Nat) :
    dimmer_brightness h t gamma raw =
      if min t.min_value_ t.max_value_ > 0 ∧
          h.powf (((to_int32 (clipped_value t raw - t.min_value_) : Int) : ℚ) /
            ((to_int32 (t.max_value_ - t.min_value_) : Int) : ℚ)) (1 / gamma) = 0 then
        1 / ((to_int32 (max t.min_value_ t.max_value_ - min t.min_value_ t.max_value_) : Int) : ℚ)
      else
        h.powf (((to_int32 (clipped_value t raw - t.min_value_) : Int) : ℚ) /
          ((to_int32 (t.max_value_ - t.min_value_) : Int) : ℚ)) (1 / gamma) :=
  rfl

/-- C16 (as the code has it): the value the dimmer listener normalises is the
raw `uint32_t` value read as a signed 32-bit integer and clamped into
[min(min_value,max_value), max(min_value,max_value)].  For a raw value below
2^31 this is the raw value clamped, and such a raw value at or above the upper
bound is treated as the upper bound; a raw value of 2^31 or more is negative
after the cast and, over a range with non-negative lower bound, is treated as
the lower bound. -/
theorem clipped_value_clamps (t : TuyaLight) (raw : Nat) (hraw : raw < 4294967296) :
    clipped_value t raw =
        min (max t.min_value_ t.max_value_) (max (min t.min_value_ t.max_value_)
          (if raw < 2147483648 then (raw : Int) else (raw : Int) - 4294967296)) ∧
      (raw < 2147483648 →
        clipped_value t raw =
          min (max t.min_value_ t.max_value_) (max (min t.min_value_ t.max_value_) (raw : Int))) ∧
      (raw < 2147483648 → max t.min_value_ t.max_value_ ≤ (raw : Int) →
        clipped_value t raw = max t.min_value_ t.max_value_) ∧
      (2147483648 ≤ raw → 0 ≤ min t.min_value_ t.max_value_ →
        clipped_value t raw = min t.min_value_ t.max_value_) := by
  have hcast : to_int32 (raw : Int) =
      if raw < 2147483648 then (raw : Int) else (raw : Int) - 4294967296 := by
    unfold to_int32
    split_ifs <;> omega
  refine ⟨?_, ?_, ?_, ?_⟩
  · simp only [clipped_value, hcast]
  · intro hsmall
    simp only [clipped_value, hcast, hsmall, if_true]
  · intro hsmall hupper
    simp only [clipped_value, hcast, hsmall, if_true]
    omega
  · intro hbig hlower
    have hnot : ¬ raw < 2147483648 := by omega
    simp only [clipped_value, hcast, hnot, if_false]
    omega

theorem clipped_value_clamps_witness :
    (300 : Nat) < 4294967296 ∧
      clipped_value (sample_light 0 255) 300 = 255 ∧
      clipped_value (sample_light 255 0) 300 = 255 := by
  have h1 := clipped_value_clamps (sample_light 0 255) 300 (by decide)
  have h2 := clipped_value_clamps (sample_light 255 0) 300 (by decide)
  exact ⟨by decide, h1.2.2.1 (by decide) (by decide), h2.2.2.1 (by decide) (by decide)⟩

/-- C16 fails for raw values of 2^31 or more: with range 0..255 the raw value
4294967295 is at or above the upper bound, its clamp into [0, 255] is 255, but
the listener normalises 0 (the cast to `int32_t` gives -1) and applies
brightness 0, not 1. -/
theorem clipped_value_large_raw :
    max (sample_light 0 255).min_value_ (sample_light 0 255).max_value_ ≤ ((4294967295 : Nat) : Int) ∧
      min (max (sample_light 0 255).min_value_ (sample_light 0 255).max_value_)
        (max (min (sample_light 0 255).min_value_ (sample_light 0 255).max_value_)
          ((4294967295 : Nat) : Int)) = 255 ∧
      clipped_value (sample_light 0 255) 4294967295 = 0 ∧
      dimmer_listener sample_helpers (sample_light 0 255) (sample_state 1 1)
          ⟨4294967295, false, []⟩ =
        ({ sample_light 0 255 with inhibit_next_send_ := true }, [make_call.set_brightness 0]) := by
  refine ⟨by decide, by decide, by decide, ?_⟩
  rw [dimmer_listener_at_rest_on _ _ _ _ rfl (sample_state_is_on 1)]
  norm_num [dimmer_brightness, sample_light, sample_state, sample_helpers, to_int32]

/-- Without gamma correction, for a range whose ends and width fit `int32_t`
and a raw value inside the range, the inbound dimmer conversion is the
quotient (raw - min_value)/(max_value - min_value), a quotient of 0 over a
range with positive lower bound being replaced by 1/(upper-lower). -/
theorem dimmer_brightness_of_mem (h : Helpers) (t : TuyaLight) (raw : Nat)
    (hmin0 : -2147483648 ≤ t.min_value_) (hmin1 : t.min_value_ < 2147483648)
    (hmax0 : -2147483648 ≤ t.max_value_) (hmax1 : t.max_value_ < 2147483648)
    (hwidth : max t.min_value_ t.max_value_ - min t.min_value_ t.max_value_ < 2147483648)
    (hpow : ∀ x, h.powf x 1 = x)
    (hlo : min t.min_value_ t.max_value_ ≤ (raw : Int))
    (hhi : (raw : Int) ≤ max t.min_value_ t.max_value_) :
    dimmer_brightness h t 1 raw =
      if 0 < min t.min_value_ t.max_value_ ∧
          ((raw : ℚ) - t.min_value_) / ((t.max_value_ : ℚ) - t.min_value_) = 0 then
        1 / (((max t.min_value_ t.max_value_ : Int) : ℚ) - ((min t.min_value_ t.max_value_ : Int) : ℚ))
      else ((raw : ℚ) - t.min_value_) / ((t.max_value_ : ℚ) - t.min_value_) := by
  have hraw : to_int32 (raw : Int) = (raw : Int) := to_int32_of_range _ (by omega) (by omega)
  have hclip : clipped_value t raw = (raw : Int) := by
    simp only [clipped_value, hraw]
    omega
  have h1 : to_int32 ((raw : Int) - t.min_value_) = (raw : Int) - t.min_value_ :=
    to_int32_of_range _ (by omega) (by omega)
  have h2 : to_int32 (t.max_value_ - t.min_value_) = t.max_value_ - t.min_value_ :=
    to_int32_of_range _ (by omega) (by omega)
  have h3 : to_int32 (max t.min_value_ t.max_value_ - min t.min_value_ t.max_value_) =
      max t.min_value_ t.max_value_ - min t.min_value_ t.max_value_ :=
    to_int32_of_range _ (by omega) (by omega)
  rw [dimmer_brightness_eq_clipped, hclip, h1, h2, h3]
  simp only [one_div_one, hpow, gt_iff_lt]
  push_cast
  rfl

/-- C17: for a range with min_value ≠ max_value whose ends and width fit
`int32_t`, without gamma correction, a dimmer update with a raw value inside
[min(min_value,max_value), max(min_value,max_value)] received while the light
is on and at rest sets the echo-suppression flag and requests the brightness
q = (raw - min_value)/(max_value - min_value), except that q = 0 is replaced by
1/(upper-lower) when the lower bound is positive; q and the requested
brightness lie in [0,1], and over an inverted range q is strictly decreasing in
raw. -/
theorem dimmer_listener_normalises (h : Helpers) (t : TuyaLight) (state : LightState)
    (datapoint : TuyaDatapoint)
    (hmin0 : -2147483648 ≤ t.min_value_) (hmin1 : t.min_value_ < 2147483648)
    (hmax0 : -2147483648 ≤ t.max_value_) (hmax1 : t.max_value_ < 2147483648)
    (hwidth : max t.min_value_ t.max_value_ - min t.min_value_ t.max_value_ < 2147483648)
    (hne : t.min_value_ ≠ t.max_value_)
    (hpow : ∀ x, h.powf x 1 = x) (hgamma : state.gamma_correct = 1)
    (hrest : state.current_values = state.remote_values)
    (hon : state.current_values.is_on = true)
    (hlo : min t.min_value_ t.max_value_ ≤ (datapoint.value_uint : Int))
    (hhi : (datapoint.value_uint : Int) ≤ max t.min_value_ t.max_value_) :
    ∃ q applied : ℚ,
      q = ((datapoint.value_uint : ℚ) - t.min_value_) / ((t.max_value_ : ℚ) - t.min_value_) ∧
      applied = (if 0 < min t.min_value_ t.max_value_ ∧ q = 0 then
          1 / (((max t.min_value_ t.max_value_ : Int) : ℚ) -
            ((min t.min_value_ t.max_value_ : Int) : ℚ))
        else q) ∧
      dimmer_listener h t state datapoint =
        ({ t with inhibit_next_send_ := true }, [make_call.set_brightness applied]) ∧
      (dimmer_listener h t state datapoint).1.inhibit_next_send_ = true ∧
      0 ≤ q ∧ q ≤ 1 ∧ 0 ≤ applied ∧ applied ≤ 1 ∧
      (t.max_value_ < t.min_value_ → ∀ raw' : Nat, datapoint.value_uint < raw' →
        ((raw' : ℚ) - t.min_value_) / ((t.max_value_ : ℚ) - t.min_value_) < q) := by
  have hcall := dimmer_listener_at_rest_on h t state datapoint hrest hon
  have hq0 : 0 ≤ ((datapoint.value_uint : ℚ) - t.min_value_) / ((t.max_value_ : ℚ) - t.min_value_) ∧
      ((datapoint.value_uint : ℚ) - t.min_value_) / ((t.max_value_ : ℚ) - t.min_value_) ≤ 1 := by
    rcases lt_or_gt_of_ne hne with hdir | hdir
    · have hd : (0 : ℚ) < (t.max_value_ : ℚ) - t.min_value_ := by
        have : (t.min_value_ : ℚ) < (t.max_value_ : ℚ) := by exact_mod_cast hdir
        linarith
      rw [min_eq_left hdir.le] at hlo
      rw [max_eq_right hdir.le] at hhi
      have hlo' : (t.min_value_ : ℚ) ≤ (datapoint.value_uint : ℚ) := by exact_mod_cast hlo
      have hhi' : (datapoint.value_uint : ℚ) ≤ (t.max_value_ : ℚ) := by exact_mod_cast hhi
      exact ⟨div_nonneg (by linarith) hd.le, (div_le_one hd).mpr (by linarith)⟩
    · have hd : (t.max_value_ : ℚ) - t.min_value_ < 0 := by
        have : (t.max_value_ : ℚ) < (t.min_value_ : ℚ) := by exact_mod_cast hdir
        linarith
      rw [min_eq_right hdir.le] at hlo
      rw [max_eq_left hdir.le] at hhi
      have hlo' : (t.max_value_ : ℚ) ≤ (datapoint.value_uint : ℚ) := by exact_mod_cast hlo
      have hhi' : (datapoint.value_uint : ℚ) ≤ (t.min_value_ : ℚ) := by exact_mod_cast hhi
      exact ⟨div_nonneg_of_nonpos (by linarith) hd.le, (div_le_one_of_neg hd).mpr (by linarith)⟩
  have hstep : (0 : ℚ) ≤ 1 / (((max t.min_value_ t.max_value_ : Int) : ℚ) -
        ((min t.min_value_ t.max_value_ : Int) : ℚ)) ∧
      1 / (((max t.min_value_ t.max_value_ : Int) : ℚ) -
        ((min t.min_value_ t.max_value_ : Int) : ℚ)) ≤ 1 := by
    have hlt : min t.min_value_ t.max_value_ + 1 ≤ max t.min_value_ t.max_value_ :=
      min_lt_max.mpr hne
    have hq : ((min t.min_value_ t.max_value_ : Int) : ℚ) + 1 ≤
        ((max t.min_value_ t.max_value_ : Int) : ℚ) := by exact_mod_cast hlt
    have hone : (1 : ℚ) ≤ ((max t.min_value_ t.max_value_ : Int) : ℚ) -
        ((min t.min_value_ t.max_value_ : Int) : ℚ) := by linarith
    exact ⟨by positivity, (div_le_one (by linarith)).mpr hone⟩
  refine ⟨_, _, rfl, rfl, ?_, ?_, hq0.1, hq0.2, ?_, ?_, ?_⟩
  · rw [hcall, hgamma,
      dimmer_brightness_of_mem h t _ hmin0 hmin1 hmax0 hmax1 hwidth hpow hlo hhi]
  · rw [hcall]
  · split_ifs
    · exact hstep.1
    · exact hq0.1
  · split_ifs
    · exact hstep.2
    · exact hq0.2
  · intro hdir raw' hraw'
    have hd : (t.max_value_ : ℚ) - t.min_value_ < 0 := by
      have : (t.max_value_ : ℚ) < (t.min_value_ : ℚ) := by exact_mod_cast hdir
      linarith
    have hlt : (datapoint.value_uint : ℚ) < (raw' : ℚ) := by exact_mod_cast hraw'
    exact div_lt_div_of_neg_of_lt hd (by linarith)

theorem dimmer_listener_normalises_witness :
    dimmer_listener sample_helpers (sample_light 0 1000) (sample_state 1 1) ⟨512, false, []⟩ =
      ({ sample_light 0 1000 with inhibit_next_send_ := true },
        [make_call.set_brightness (64 / 125)]) := by
  obtain ⟨q, applied, hq, happlied, hcall, -⟩ :=
    dimmer_listener_normalises sample_helpers (sample_light 0 1000) (sample_state 1 1)
      ⟨512, false, []⟩ (by decide) (by decide) (by decide) (by decide) (by decide) (by decide)
      (fun _ => rfl) rfl rfl (sample_state_is_on 1) (by decide) (by decide)
  rw [hcall, happlied, hq]
  norm_num [sample_light]

/-- With the light on, an unsuppressed pass is not ended by the off shortcut:
it writes the white group, the colour and the switch, in this order. -/
theorem write_state_on (h : Helpers) (t : TuyaLight) (state : LightState)
    (hflag : t.inhibit_next_send_ = false) (hon : state.current_values.is_on = true) :
    (write_state h t state).2 =
      white_writes t (extract t state) ++ color_writes h t (extract t state) ++
        switch_writes t (extract t state) := by
  simp only [write_state, hflag, Bool.false_eq_true, if_false, write_body, hon]

/-- The locals of `write_state` are the outputs of the accessor that matches
the bound channels: RGB+CT, RGB+W, RGB only, CT only, or brightness only;
what the accessor does not write stays at its initial 0. -/
theorem extract_of_bindings (t : TuyaLight) (state : LightState) :
    (t.color_id_.isSome = true → t.color_temperature_id_.isSome = true →
        extract t state =
          { red := state.as_rgbct.1, green := state.as_rgbct.2.1, blue := state.as_rgbct.2.2.1,
            color_temperature := state.as_rgbct.2.2.2.1,
            brightness := state.as_rgbct.2.2.2.2 }) ∧
      (t.color_id_.isSome = true → t.color_temperature_id_ = none →
        t.dimmer_id_.isSome = true →
        extract t state =
          { red := state.as_rgbw.1, green := state.as_rgbw.2.1, blue := state.as_rgbw.2.2.1,
            color_temperature := 0, brightness := state.as_rgbw.2.2.2 }) ∧
      (t.color_id_.isSome = true → t.color_temperature_id_ = none → t.dimmer_id_ = none →
        extract t state =
          { red := state.as_rgb.1, green := state.as_rgb.2.1, blue := state.as_rgb.2.2,
            color_temperature := 0, brightness := 0 }) ∧
      (t.color_id_ = none → t.color_temperature_id_.isSome = true →
        extract t state =
          { red := 0, green := 0, blue := 0, color_temperature := state.as_ct.1,
            brightness := state.as_ct.2 }) ∧
      (t.color_id_ = none → t.color_temperature_id_ = none →
        extract t state =
          { red := 0, green := 0, blue := 0, color_temperature := 0,
            brightness := state.as_brightness }) := by
  refine ⟨?_, ?_, ?_, ?_, ?_⟩
  · intro hc ht
    simp [extract, hc, ht]
  · intro hc ht hd
    simp [extract, hc, ht, hd]
  · intro hc ht hd
    simp [extract, hc, ht, hd]
  · intro hc ht
    simp [extract, hc, ht]
  · intro hc ht
    simp [extract, hc, ht]

/-- C18: in a pass that is neither suppressed nor ended by the off shortcut
(the light is on), with a switch datapoint bound, the last write is the switch
set to (brightness ≠ 0), where the brightness is the output of the accessor
for the configured channel combination: the white brightness of
`current_values_as_rgbct` when colour and colour temperature are bound, the
white of `current_values_as_rgbw` when colour and dimmer are bound without
colour temperature, the white brightness of `current_values_as_ct` when colour
temperature is bound without colour, and `current_values_as_brightness` when
neither is bound.  When colour is bound without dimmer and colour temperature
no brightness is extracted, the local stays 0, and the pass ends with switch
false. -/
theorem write_state_last_write_is_switch (h : Helpers) (t : TuyaLight) (state : LightState)
    (id : Nat) (hflag : t.inhibit_next_send_ = false) (hswitch : t.switch_id_ = some id)
    (hon : state.current_values.is_on = true) :
    (write_state h t state).2.getLast? =
        some (DatapointWrite.set_boolean_datapoint_value id
          (decide ((extract t state).brightness ≠ 0))) ∧
      (t.color_id_.isSome = true → t.color_temperature_id_.isSome = true →
        (write_state h t state).2.getLast? =
          some (DatapointWrite.set_boolean_datapoint_value id
            (decide (state.as_rgbct.2.2.2.2 ≠ 0)))) ∧
      (t.color_id_.isSome = true → t.color_temperature_id_ = none →
        t.dimmer_id_.isSome = true →
        (write_state h t state).2.getLast? =
          some (DatapointWrite.set_boolean_datapoint_value id
            (decide (state.as_rgbw.2.2.2 ≠ 0)))) ∧
      (t.color_id_.isSome = true → t.color_temperature_id_ = none → t.dimmer_id_ = none →
        (extract t state).brightness = 0 ∧
          (write_state h t state).2.getLast? =
            some (DatapointWrite.set_boolean_datapoint_value id false)) ∧
      (t.color_id_ = none → t.color_temperature_id_.isSome = true →
        (write_state h t state).2.getLast? =
          some (DatapointWrite.set_boolean_datapoint_value id (decide (state.as_ct.2 ≠ 0)))) ∧
      (t.color_id_ = none → t.color_temperature_id_ = none →
        (write_state h t state).2.getLast? =
          some (DatapointWrite.set_boolean_datapoint_value id
            (decide (state.as_brightness ≠ 0)))) := by
  have hlast : (write_state h t state).2.getLast? =
      some (DatapointWrite.set_boolean_datapoint_value id
        (decide ((extract t state).brightness ≠ 0))) := by
    rw [write_state_on h t state hflag hon]
    simp [switch_writes, hswitch]
  obtain ⟨h1, h2, h3, h4, h5⟩ := extract_of_bindings t state
  refine ⟨hlast, ?_, ?_, ?_, ?_, ?_⟩
  · intro hc ht
    rw [hlast, h1 hc ht]
  · intro hc ht hd
    rw [hlast, h2 hc ht hd]
  · intro hc ht hd
    have hzero : (extract t state).brightness = 0 := by rw [h3 hc ht hd]
    refine ⟨hzero, ?_⟩
    rw [hlast, hzero]
    simp
  · intro hc ht
    rw [hlast, h4 hc ht]
  · intro hc ht
    rw [hlast, h5 hc ht]

theorem write_state_last_write_is_switch_witness :
    (write_state sample_helpers sample_color_switch_light (sample_state 1 1)).2.getLast? =
        some (DatapointWrite.set_boolean_datapoint_value 1 false) ∧
      (write_state sample_helpers (sample_color_light false) (sample_state 1 (1 / 2))).2.getLast? =
        some (DatapointWrite.set_boolean_datapoint_value 1 true) := by
  have hlast := write_state_last_write_is_switch sample_helpers sample_color_switch_light
    (sample_state 1 1) 1 rfl rfl (sample_state_is_on 1)
  have hboth := write_state_last_write_is_switch sample_helpers (sample_color_light false)
    (sample_state 1 (1 / 2)) 1 rfl rfl (sample_state_is_on (1 / 2))
  refine ⟨(hlast.2.2.2.1 rfl rfl rfl).2, ?_⟩
  rw [hboth.2.1 rfl rfl]
  norm_num [sample_state]

/-! ## Hexadecimal strings -/

theorem hex_value_hex_upper (d : Nat) (hd : d < 16) : hex_value (hex_upper d) = some d := by
  interval_cases d <;> decide

theorem is_upper_hex_hex_upper (d : Nat) (hd : d < 16) : is_upper_hex (hex_upper d) = true := by
  interval_cases d <;> decide

/-- An upper-case hexadecimal digit is the digit character of its value. -/
theorem hex_upper_hex_value (c : Char) (hc : is_upper_hex c = true) :
    ∃ d, d < 16 ∧ hex_value c = some d ∧ hex_upper d = c := by
  simp only [is_upper_hex, Bool.or_eq_true, Bool.and_eq_true, decide_eq_true_eq] at hc
  rcases hc with ⟨h1, h2⟩ | ⟨h1, h2⟩
  · refine ⟨c.toNat - 48, by omega, ?_, ?_⟩
    · simp [hex_value, h1, h2]
    · have hlt : c.toNat - 48 < 10 := by omega
      have hsum : 48 + (c.toNat - 48) = c.toNat := by omega
      simp only [hex_upper, hlt, if_true, hsum, Char.ofNat_toNat]
  · refine ⟨c.toNat - 55, by omega, ?_, ?_⟩
    · have hn : ¬ (48 ≤ c.toNat ∧ c.toNat ≤ 57) := by omega
      simp [hex_value, hn, h1, h2]
    · have hlt : ¬ c.toNat - 55 < 10 := by omega
      have hsum : 55 + (c.toNat - 55) = c.toNat := by omega
      simp only [hex_upper, hlt, if_false, hsum, Char.ofNat_toNat]

theorem hex_value_lt (c : Char) (d : Nat) (hc : hex_value c = some d) : d < 16 := by
  unfold hex_value at hc
  split_ifs at hc <;> simp at hc <;> omega

/-- The two-character field of a byte holds its high and its low digit. -/
theorem format_X_two (d1 d2 : Nat) (h1 : d1 < 16) (h2 : d2 < 16) :
    format_X 2 ((16 * d1 + d2 : Nat) : Int) = [hex_upper d1, hex_upper d2] := by
  have hu : to_uint32 ((16 * d1 + d2 : Nat) : Int) = 16 * d1 + d2 := by
    have := to_uint32_of_range ((16 * d1 + d2 : Nat) : Int) (by omega) (by omega)
    omega
  rw [format_X, hu]
  rcases Nat.eq_zero_or_pos d1 with hz | hpos
  · subst hz
    rcases Nat.eq_zero_or_pos d2 with hz2 | hpos2
    · subst hz2
      simp [List.leftpad, hex_upper]
    · rw [Nat.mul_zero, Nat.zero_add, Nat.digits_of_lt 16 d2 hpos2.ne' h2]
      simp [List.leftpad, hex_upper]
  · rw [Nat.add_comm, Nat.digits_add 16 (by decide) d2 d1 h2 (Or.inr hpos.ne'),
      Nat.digits_of_lt 16 d1 hpos.ne' h1]
    simp [List.leftpad]

theorem parse_hex_two (c1 c2 : Char) (d1 d2 : Nat) (h1 : hex_value c1 = some d1)
    (h2 : hex_value c2 = some d2) : parse_hex 2 [c1, c2] = some (16 * d1 + d2) := by
  simp [parse_hex, hex_digits_value, h1, h2, Nat.mul_comm]

/-- What `int(x)` keeps of a non-negative value: the integer part. -/
theorem float_to_int_bounds (q : ℚ) (hq : 0 ≤ q) :
    0 ≤ float_to_int q ∧ ((float_to_int q : Int) : ℚ) ≤ q ∧ q < ((float_to_int q : Int) : ℚ) + 1 := by
  simp only [float_to_int, hq, if_true]
  exact ⟨Int.floor_nonneg.mpr hq, Int.floor_le q, Int.lt_floor_add_one q⟩

theorem float_to_int_natCast (n : Nat) : float_to_int (n : ℚ) = (n : Int) := by
  have h0 : (0 : ℚ) ≤ (n : ℚ) := Nat.cast_nonneg n
  simp only [float_to_int, h0, if_true]
  exact_mod_cast Int.floor_intCast (n : Int)

/-- Every character of a formatted field is an upper-case hexadecimal digit. -/
theorem format_X_upper (width : Nat) (v : Int) (c : Char) (hc : c ∈ format_X width v) :
    is_upper_hex c = true := by
  simp only [format_X, List.leftpad, List.mem_append, List.mem_replicate, List.mem_map,
    List.mem_reverse] at hc
  rcases hc with ⟨-, rfl⟩ | ⟨d, hd, rfl⟩
  · decide
  · exact is_upper_hex_hex_upper d (Nat.digits_lt_base (by decide) hd)

theorem digits_length_le (width n : Nat) (hn : n < 16 ^ width) :
    (Nat.digits 16 n).length ≤ width := by
  rcases Nat.eq_zero_or_pos n with hz | hpos
  · subst hz
    simp
  · by_contra hlt
    have hlen : width + 1 ≤ (Nat.digits 16 n).length := by omega
    have hpow : 16 ^ (width + 1) ≤ 16 ^ (Nat.digits 16 n).length :=
      Nat.pow_le_pow_right (by decide) hlen
    have hle := Nat.base_pow_length_digits_le 16 n (by decide) hpos.ne'
    have hexp : 16 ^ (width + 1) = 16 * 16 ^ width := by ring
    omega

/-- A value that fits the field is printed with exactly the field width. -/
theorem format_X_length (width : Nat) (v : Int) (hw : width ≤ 8) (h0 : 0 ≤ v)
    (h1 : v < 16 ^ width) : (format_X width v).length = width := by
  have hpow : (16 : Int) ^ width ≤ 16 ^ 8 := pow_le_pow_right₀ (by decide) hw
  have hu : (to_uint32 v : Int) = v := to_uint32_of_range v h0 (by norm_num at hpow; omega)
  have hn : to_uint32 v < 16 ^ width := by
    have : ((to_uint32 v : Nat) : Int) < ((16 ^ width : Nat) : Int) := by
      rw [hu]
      exact_mod_cast h1
    exact_mod_cast this
  have hlen := digits_length_le width (to_uint32 v) hn
  simp only [format_X, List.leftpad_length, List.length_map, List.length_reverse]
  omega

/-- A colour channel in [0,1], scaled by a positive factor and truncated, lies
between 0 and the factor. -/
theorem float_to_int_scaled (q : ℚ) (k : Nat) (hq0 : 0 ≤ q) (hq1 : q ≤ 1) :
    0 ≤ float_to_int (q * (k : ℚ)) ∧ float_to_int (q * (k : ℚ)) ≤ (k : Int) := by
  have hk : (0 : ℚ) ≤ (k : ℚ) := Nat.cast_nonneg k
  have hprod : 0 ≤ q * (k : ℚ) := mul_nonneg hq0 hk
  have hb := float_to_int_bounds (q * (k : ℚ)) hprod
  refine ⟨hb.1, ?_⟩
  have hle : q * (k : ℚ) ≤ (k : ℚ) := by nlinarith
  have : ((float_to_int (q * (k : ℚ)) : Int) : ℚ) ≤ ((k : Int) : ℚ) := by
    push_cast
    linarith [hb.2.1]
  exact_mod_cast this

/-! ## Reading a formatted field back -/

theorem hex_digits_value_append (xs ys : List Char) (a b : Nat)
    (hx : hex_digits_value xs = some a) (hy : hex_digits_value ys = some b) :
    hex_digits_value (xs ++ ys) = some (a * 16 ^ ys.length + b) := by
  induction xs generalizing a with
  | nil =>
    simp only [hex_digits_value, Option.some.injEq] at hx
    subst hx
    simpa using hy
  | cons c cs ih =>
    simp only [hex_digits_value] at hx
    cases hc : hex_value c with
    | none => simp [hc] at hx
    | some d =>
      cases hcs : hex_digits_value cs with
      | none => simp [hc, hcs] at hx
      | some r =>
        simp only [hc, hcs, Option.some.injEq] at hx
        subst hx
        rw [List.cons_append]
        simp only [hex_digits_value, hc, ih r hcs, List.length_append, Option.some.injEq]
        ring

theorem hex_digits_value_zeros (k : Nat) :
    hex_digits_value (List.replicate k '0') = some 0 := by
  induction k with
  | zero => rfl
  | succ k ih =>
    have h0 : hex_value '0' = some 0 := by decide
    simp [List.replicate_succ, hex_digits_value, h0, ih]

theorem hex_digits_value_digits (l : List Nat) (hl : ∀ d ∈ l, d < 16) :
    hex_digits_value (l.reverse.map hex_upper) = some (Nat.ofDigits 16 l) := by
  induction l with
  | nil => rfl
  | cons d ds ih =>
    have hd : d < 16 := hl d (List.mem_cons_self _ _)
    have htail := ih (fun x hx => hl x (List.mem_cons_of_mem _ hx))
    have hlast : hex_digits_value [hex_upper d] = some d := by
      simp [hex_digits_value, hex_value_hex_upper d hd]
    rw [List.reverse_cons, List.map_append, List.map_singleton,
      hex_digits_value_append _ _ _ _ htail hlast, Nat.ofDigits_cons]
    simp only [List.length_singleton, pow_one, Option.some.injEq]
    ring

/-- A formatted field, read back as hexadecimal digits, is the value printed. -/
theorem hex_digits_value_format_X (width : Nat) (v : Int) :
    hex_digits_value (format_X width v) = some (to_uint32 v) := by
  have hdigits := hex_digits_value_digits (Nat.digits 16 (to_uint32 v))
    (fun d hd => Nat.digits_lt_base (by decide) hd)
  rw [Nat.ofDigits_digits] at hdigits
  have h := hex_digits_value_append _ _ _ _ (hex_digits_value_zeros
    (width - ((Nat.digits 16 (to_uint32 v)).reverse.map hex_upper).length)) hdigits
  simp only [format_X, List.leftpad]
  rw [h]
  simp

theorem to_uint32_toNat (v : Int) (h0 : 0 ≤ v) (h1 : v < 4294967296) :
    to_uint32 v = v.toNat := by
  have h := to_uint32_of_range v h0 h1
  omega

/-- A field printed from a value that fits it has the field width and reads
back as that value. -/
theorem format_X_field (width : Nat) (v : Int) (hw : width ≤ 8) (h0 : 0 ≤ v)
    (h1 : v < 16 ^ width) :
    (format_X width v).length = width ∧ hex_digits_value (format_X width v) = some v.toNat := by
  have hpow : (16 : Int) ^ width ≤ 16 ^ 8 := pow_le_pow_right₀ (by decide) hw
  refine ⟨format_X_length width v hw h0 h1, ?_⟩
  rw [hex_digits_value_format_X, to_uint32_toNat v h0 (by norm_num at hpow; omega)]

/-- A colour channel in [0,1], scaled in `float` by an integer of at most 2^24
and truncated, lies between 0 and the scale. -/
theorem float_channel_bounds (q : ℚ) (k : Nat) (hk : k ≤ 16777216) (hq0 : 0 ≤ q) (hq1 : q ≤ 1) :
    0 ≤ float_to_int (float32_round (q * (k : ℚ))) ∧
      float_to_int (float32_round (q * (k : ℚ))) ≤ (k : Int) := by
  have hk0 : (0 : ℚ) ≤ (k : ℚ) := Nat.cast_nonneg k
  have hbetween := float32_round_between (q * (k : ℚ)) 0 (k : Int) (by omega) (by omega)
    (by omega) (by omega) (by push_cast; exact mul_nonneg hq0 hk0)
    (by push_cast; exact mul_le_of_le_one_left hk0 hq1)
  push_cast at hbetween
  have hb := float_to_int_bounds _ hbetween.1
  refine ⟨hb.1, ?_⟩
  have : ((float_to_int (float32_round (q * (k : ℚ))) : Int) : ℚ) ≤ ((k : Int) : ℚ) := by
    push_cast
    linarith [hb.2.1, hbetween.2]
  exact_mod_cast this

/-- A byte-sized field: a channel in [0,1] scaled by 255. -/
theorem format_X_channel (q : ℚ) (hq0 : 0 ≤ q) (hq1 : q ≤ 1) :
    0 ≤ float_to_int (float32_round (q * 255)) ∧
      (format_X 2 (float_to_int (float32_round (q * 255)))).length = 2 ∧
      hex_digits_value (format_X 2 (float_to_int (float32_round (q * 255)))) =
        some (float_to_int (float32_round (q * 255))).toNat := by
  have hb := float_channel_bounds q 255 (by decide) hq0 hq1
  simp only [Nat.cast_ofNat] at hb
  have hf := format_X_field 2 _ (by decide) hb.1 (by norm_num; omega)
  exact ⟨hb.1, hf.1, hf.2⟩

/-- A wide field: a channel in [0,1] scaled by 1000. -/
theorem format_X_permille (q : ℚ) (hq0 : 0 ≤ q) (hq1 : q ≤ 1) :
    0 ≤ float_to_int (float32_round (q * 1000)) ∧
      (format_X 4 (float_to_int (float32_round (q * 1000)))).length = 4 ∧
      hex_digits_value (format_X 4 (float_to_int (float32_round (q * 1000)))) =
        some (float_to_int (float32_round (q * 1000))).toNat := by
  have hb := float_channel_bounds q 1000 (by decide) hq0 hq1
  simp only [Nat.cast_ofNat] at hb
  have hf := format_X_field 4 _ (by decide) hb.1 (by norm_num; omega)
  exact ⟨hb.1, hf.1, hf.2⟩

/-- The only string write of a pass carries the formatted colour. -/
theorem write_state_string_write (h : Helpers) (t : TuyaLight) (state : LightState) (id : Nat)
    (s : List Char)
    (hmem : DatapointWrite.set_string_datapoint_value id s ∈ (write_state h t state).2) :
    s = color_value h t (extract t state).red (extract t state).green (extract t state).blue := by
  rcases write_state_writes h t state with hw | ⟨id', hw⟩ | hw
  · rw [hw] at hmem
    simp at hmem
  · rw [hw] at hmem
    simp at hmem
  · rw [hw] at hmem
    simp only [List.mem_append] at hmem
    rcases hmem with (hmem | hmem) | hmem
    · have hany : (white_writes t (extract t state)).any is_color_write = true :=
        List.any_eq_true.mpr ⟨_, hmem, rfl⟩
      rw [white_writes_no_color] at hany
      exact absurd hany (by decide)
    · unfold color_writes at hmem
      split at hmem
      · split at hmem
        · simp only [List.mem_singleton, DatapointWrite.set_string_datapoint_value.injEq] at hmem
          exact hmem.2
        · simp at hmem
      · simp at hmem
    · have hany : (switch_writes t (extract t state)).any is_color_write = true :=
        List.any_eq_true.mpr ⟨_, hmem, rfl⟩
      rw [switch_writes_no_color] at hany
      exact absurd hany (by decide)

/-- The colour write of a pass that is not suppressed, with the light on, the
colour datapoint bound and the colour gate open. -/
theorem write_state_string_mem (h : Helpers) (t : TuyaLight) (state : LightState) (id : Nat)
    (hflag : t.inhibit_next_send_ = false) (hon : state.current_values.is_on = true)
    (hcolor : t.color_id_ = some id)
    (hgate : (extract t state).brightness = 0 ∨ t.color_interlock_ = false) :
    DatapointWrite.set_string_datapoint_value id
        (color_value h t (extract t state).red (extract t state).green (extract t state).blue) ∈
      (write_state h t state).2 := by
  rw [write_state_on h t state hflag hon]
  have hmem : DatapointWrite.set_string_datapoint_value id
      (color_value h t (extract t state).red (extract t state).green (extract t state).blue) ∈
      color_writes h t (extract t state) := by
    simp [color_writes, hcolor, hgate]
  exact List.mem_append_left _ (List.mem_append_right _ hmem)

/-- C15: for red, green and blue in [0,1] (and, in the two modes that use it,
an `rgb_to_hsv` result with hue in [0, 65536) and saturation and value in
[0,1]) the colour string formatted by `write_state` is the concatenation of
the fields of its encoding, each of its wire width and each reading back as
the number it stands for: RR GG BB of int(channel*255) in RGB mode; HHHH SSSS
VVVV of hue, int(saturation*1000), int(value*1000) in HSV mode; RR GG BB HHHH
SS VV of int(channel*255), hue, int(saturation*255), int(value*255) in
combined mode.  The string has 6, 12 or 14 characters, all upper-case
hexadecimal digits.  Every string write of a pass carries this string for the
red, green and blue of the accessor of the configured combination, and the
pass makes that write when it is not suppressed, the light is on, the colour
datapoint is bound and the brightness is 0 or the interlock is off. -/
theorem color_value_wire_format (h : Helpers) (t : TuyaLight) (red green blue : ℚ)
    (hred : 0 ≤ red ∧ red ≤ 1) (hgreen : 0 ≤ green ∧ green ≤ 1) (hblue : 0 ≤ blue ∧ blue ≤ 1)
    (hhsv : t.color_type_ ≠ TuyaColorType.RGB →
      (0 ≤ (h.rgb_to_hsv red green blue).1 ∧ (h.rgb_to_hsv red green blue).1 < 65536) ∧
      (0 ≤ (h.rgb_to_hsv red green blue).2.1 ∧ (h.rgb_to_hsv red green blue).2.1 ≤ 1) ∧
      (0 ≤ (h.rgb_to_hsv red green blue).2.2 ∧ (h.rgb_to_hsv red green blue).2.2 ≤ 1)) :
    (∃ fields : List (List Char),
        color_value h t red green blue = fields.flatten ∧
        fields.map List.length = wire_field_widths t.color_type_ ∧
        fields.map hex_digits_value =
          (wire_field_values h t.color_type_ red green blue).map fun v => some v.toNat) ∧
      (∀ v ∈ wire_field_values h t.color_type_ red green blue, 0 ≤ v) ∧
      (color_value h t red green blue).length = wire_width t.color_type_ ∧
      (∀ c ∈ color_value h t red green blue, is_upper_hex c = true) ∧
      (∀ (state : LightState) (id : Nat) (s : List Char),
        t.color_id_.isSome = true →
        (if t.color_temperature_id_.isSome = true then
            (state.as_rgbct.1, state.as_rgbct.2.1, state.as_rgbct.2.2.1)
          else if t.dimmer_id_.isSome = true then
            (state.as_rgbw.1, state.as_rgbw.2.1, state.as_rgbw.2.2.1)
          else state.as_rgb) = (red, green, blue) →
        DatapointWrite.set_string_datapoint_value id s ∈ (write_state h t state).2 →
        s = color_value h t red green blue) ∧
      (∀ (state : LightState) (id : Nat),
        t.inhibit_next_send_ = false → state.current_values.is_on = true →
        t.color_id_ = some id →
        (if t.color_temperature_id_.isSome = true then
            (state.as_rgbct.1, state.as_rgbct.2.1, state.as_rgbct.2.2.1)
          else if t.dimmer_id_.isSome = true then
            (state.as_rgbw.1, state.as_rgbw.2.1, state.as_rgbw.2.2.1)
          else state.as_rgb) = (red, green, blue) →
        ((if t.color_temperature_id_.isSome = true then state.as_rgbct.2.2.2.2
          else if t.dimmer_id_.isSome = true then state.as_rgbw.2.2.2 else 0) = 0 ∨
          t.color_interlock_ = false) →
        DatapointWrite.set_string_datapoint_value id (color_value h t red green blue) ∈
          (write_state h t state).2) := by
  obtain ⟨hR0, hRl, hRv⟩ := format_X_channel red hred.1 hred.2
  obtain ⟨hG0, hGl, hGv⟩ := format_X_channel green hgreen.1 hgreen.2
  obtain ⟨hB0, hBl, hBv⟩ := format_X_channel blue hblue.1 hblue.2
  have hextract : ∀ state : LightState, t.color_id_.isSome = true →
      (if t.color_temperature_id_.isSome = true then
          (state.as_rgbct.1, state.as_rgbct.2.1, state.as_rgbct.2.2.1)
        else if t.dimmer_id_.isSome = true then
          (state.as_rgbw.1, state.as_rgbw.2.1, state.as_rgbw.2.2.1)
        else state.as_rgb) = (red, green, blue) →
      (extract t state).red = red ∧ (extract t state).green = green ∧
        (extract t state).blue = blue ∧
        (extract t state).brightness =
          (if t.color_temperature_id_.isSome = true then state.as_rgbct.2.2.2.2
            else if t.dimmer_id_.isSome = true then state.as_rgbw.2.2.2 else 0) := by
    intro state hc hrgb
    obtain ⟨h1, h2, h3, -, -⟩ := extract_of_bindings t state
    cases ht : t.color_temperature_id_ with
    | some ct =>
      have hE := h1 hc (by simp [ht])
      simp only [ht, Option.isSome_some, if_true, Prod.mk.injEq] at hrgb
      simp [hE, hrgb]
    | none =>
      cases hd : t.dimmer_id_ with
      | some d =>
        have hE := h2 hc ht (by simp [hd])
        simp only [ht, hd, Option.isSome_none, Option.isSome_some, Bool.false_eq_true, if_false,
          if_true, Prod.mk.injEq] at hrgb
        simp [hE, hrgb]
      | none =>
        have hE := h3 hc ht hd
        simp only [ht, hd, Option.isSome_none, Bool.false_eq_true, if_false] at hrgb
        have hr : state.as_rgb.1 = red := by rw [hrgb]
        have hg : state.as_rgb.2.1 = green := by rw [hrgb]
        have hb : state.as_rgb.2.2 = blue := by rw [hrgb]
        simp [hE, hr, hg, hb]
  have hfields : ∃ fields : List (List Char),
      color_value h t red green blue = fields.flatten ∧
      fields.map List.length = wire_field_widths t.color_type_ ∧
      fields.map hex_digits_value =
        (wire_field_values h t.color_type_ red green blue).map (fun v => some v.toNat) ∧
      (∀ v ∈ wire_field_values h t.color_type_ red green blue, 0 ≤ v) ∧
      (∀ f ∈ fields, ∀ c ∈ f, is_upper_hex c = true) := by
    cases htype : t.color_type_
    · refine ⟨[format_X 2 (float_to_int (float32_round (red * 255))),
        format_X 2 (float_to_int (float32_round (green * 255))),
        format_X 2 (float_to_int (float32_round (blue * 255)))], ?_, ?_, ?_, ?_, ?_⟩
      · simp [color_value, color_value_with, htype]
      · simp [wire_field_widths, hRl, hGl, hBl]
      · simp [wire_field_values, hRv, hGv, hBv]
      · simp [wire_field_values, hR0, hG0, hB0]
      · intro f hf c hc
        simp only [List.mem_cons, List.mem_singleton, List.not_mem_nil, or_false] at hf
        rcases hf with rfl | rfl | rfl <;> exact format_X_upper _ _ c hc
    · obtain ⟨hhue, hsat, hval⟩ := hhsv (by simp [htype])
      have hH := format_X_field 4 _ (by decide) hhue.1 (by norm_num; exact hhue.2)
      obtain ⟨hS0, hSl, hSv⟩ := format_X_permille _ hsat.1 hsat.2
      obtain ⟨hV0, hVl, hVv⟩ := format_X_permille _ hval.1 hval.2
      refine ⟨[format_X 4 (h.rgb_to_hsv red green blue).1,
        format_X 4 (float_to_int (float32_round ((h.rgb_to_hsv red green blue).2.1 * 1000))),
        format_X 4 (float_to_int (float32_round ((h.rgb_to_hsv red green blue).2.2 * 1000)))],
        ?_, ?_, ?_, ?_, ?_⟩
      · simp [color_value, color_value_with, htype]
      · simp [wire_field_widths, hH.1, hSl, hVl]
      · simp [wire_field_values, hH.2, hSv, hVv]
      · simp [wire_field_values, hhue.1, hS0, hV0]
      · intro f hf c hc
        simp only [List.mem_cons, List.mem_singleton, List.not_mem_nil, or_false] at hf
        rcases hf with rfl | rfl | rfl <;> exact format_X_upper _ _ c hc
    · obtain ⟨hhue, hsat, hval⟩ := hhsv (by simp [htype])
      have hH := format_X_field 4 _ (by decide) hhue.1 (by norm_num; exact hhue.2)
      obtain ⟨hS0, hSl, hSv⟩ := format_X_channel _ hsat.1 hsat.2
      obtain ⟨hV0, hVl, hVv⟩ := format_X_channel _ hval.1 hval.2
      refine ⟨[format_X 2 (float_to_int (float32_round (red * 255))),
        format_X 2 (float_to_int (float32_round (green * 255))),
        format_X 2 (float_to_int (float32_round (blue * 255))),
        format_X 4 (h.rgb_to_hsv red green blue).1,
        format_X 2 (float_to_int (float32_round ((h.rgb_to_hsv red green blue).2.1 * 255))),
        format_X 2 (float_to_int (float32_round ((h.rgb_to_hsv red green blue).2.2 * 255)))],
        ?_, ?_, ?_, ?_, ?_⟩
      · simp [color_value, color_value_with, htype]
      · simp [wire_field_widths, hRl, hGl, hBl, hH.1, hSl, hVl]
      · simp [wire_field_values, hRv, hGv, hBv, hH.2, hSv, hVv]
      · simp [wire_field_values, hR0, hG0, hB0, hhue.1, hS0, hV0]
      · intro f hf c hc
        simp only [List.mem_cons, List.mem_singleton, List.not_mem_nil, or_false] at hf
        rcases hf with rfl | rfl | rfl | rfl | rfl | rfl <;> exact format_X_upper _ _ c hc
  obtain ⟨fields, hjoin, hwidths, hvalues, hnonneg, hupper⟩ := hfields
  refine ⟨⟨fields, hjoin, hwidths, hvalues⟩, hnonneg, ?_, ?_, ?_, ?_⟩
  · have hsum : (fields.flatten).length = (fields.map List.length).sum := List.length_flatten fields
    rw [hjoin, hsum, hwidths]
    cases t.color_type_ <;> rfl
  · intro c hc
    rw [hjoin, List.mem_flatten] at hc
    obtain ⟨f, hf, hcf⟩ := hc
    exact hupper f hf c hcf
  · intro state id s hc hrgb hmem
    obtain ⟨hr, hg, hb, -⟩ := hextract state hc hrgb
    rw [write_state_string_write h t state id s hmem, hr, hg, hb]
  · intro state id hflag hon hcolor hrgb hgate
    obtain ⟨hr, hg, hb, hbr⟩ := hextract state (by simp [hcolor]) hrgb
    have hmem := write_state_string_mem h t state id hflag hon hcolor (by rw [hbr]; exact hgate)
    rw [hr, hg, hb] at hmem
    exact hmem

/-- The standard transform keeps its contract on colours in [0,1]: hue in
[0, 360), saturation and value in [0,1]. -/
theorem standard_rgb_to_hsv_range (red green blue : ℚ)
    (hred : 0 ≤ red ∧ red ≤ 1) (hgreen : 0 ≤ green ∧ green ≤ 1) (hblue : 0 ≤ blue ∧ blue ≤ 1) :
    (0 ≤ (standard_rgb_to_hsv red green blue).1 ∧ (standard_rgb_to_hsv red green blue).1 < 360) ∧
      (0 ≤ (standard_rgb_to_hsv red green blue).2.1 ∧
        (standard_rgb_to_hsv red green blue).2.1 ≤ 1) ∧
      (0 ≤ (standard_rgb_to_hsv red green blue).2.2 ∧
        (standard_rgb_to_hsv red green blue).2.2 ≤ 1) := by
  have hmax0 : 0 ≤ max (max red green) blue := le_trans hred.1 (le_trans (le_max_left _ _) (le_max_left _ _))
  have hmax1 : max (max red green) blue ≤ 1 := max_le (max_le hred.2 hgreen.2) hblue.2
  have hmin0 : 0 ≤ min (min red green) blue := le_min (le_min hred.1 hgreen.1) hblue.1
  have hminmax : min (min red green) blue ≤ max (max red green) blue :=
    le_trans (min_le_right _ _) (le_max_right _ _)
  refine ⟨?_, ?_, hmax0, hmax1⟩
  · simp only [standard_rgb_to_hsv]
    generalize (if max (max red green) blue - min (min red green) blue = 0 then (0 : ℚ)
      else if max (max red green) blue = red then
        60 * ((green - blue) / (max (max red green) blue - min (min red green) blue)) + 360
      else if max (max red green) blue = green then
        60 * ((blue - red) / (max (max red green) blue - min (min red green) blue)) + 120
      else 60 * ((red - green) / (max (max red green) blue - min (min red green) blue)) + 240) =
      angle
    have h1 := Int.floor_le (angle / 360)
    have h2 := Int.lt_floor_add_one (angle / 360)
    have hlo : 0 ≤ angle - 360 * (⌊angle / 360⌋ : ℚ) := by
      have := mul_le_mul_of_nonneg_left h1 (by norm_num : (0 : ℚ) ≤ 360)
      have hx : 360 * (angle / 360) = angle := by ring
      linarith
    have hhi : angle - 360 * (⌊angle / 360⌋ : ℚ) < 360 := by
      have := mul_lt_mul_of_pos_left h2 (by norm_num : (0 : ℚ) < 360)
      have hx : 360 * (angle / 360) = angle := by ring
      linarith
    have hb := float_to_int_bounds _ hlo
    refine ⟨hb.1, ?_⟩
    have : ((float_to_int (angle - 360 * (⌊angle / 360⌋ : ℚ)) : Int) : ℚ) < ((360 : Int) : ℚ) := by
      push_cast
      linarith [hb.2.1]
    exact_mod_cast this
  · simp only [standard_rgb_to_hsv]
    split_ifs with hz
    · exact ⟨le_refl _, zero_le_one⟩
    · have hpos : 0 < max (max red green) blue := lt_of_le_of_ne hmax0 (Ne.symm hz)
      exact ⟨div_nonneg (by linarith) hpos.le, (div_le_one hpos).mpr (by linarith)⟩

theorem color_value_wire_format_witness :
    (color_value sample_hsv_helpers (sample_encoding_light TuyaColorType.RGBHSV)
        1 (1 / 5) 0).length = 14 ∧
      (∀ c ∈ color_value sample_hsv_helpers (sample_encoding_light TuyaColorType.RGBHSV)
        1 (1 / 5) 0, is_upper_hex c = true) ∧
      (color_value sample_hsv_helpers (sample_encoding_light TuyaColorType.HSV)
        1 (1 / 5) 0).length = 12 ∧
      (∃ fields : List (List Char),
        color_value sample_hsv_helpers (sample_encoding_light TuyaColorType.HSV) 1 (1 / 5) 0 =
          fields.flatten ∧
        fields.map List.length = [4, 4, 4] ∧
        fields.map hex_digits_value =
          (wire_field_values sample_hsv_helpers TuyaColorType.HSV 1 (1 / 5) 0).map
            fun v => some v.toNat) := by
  have hrange := standard_rgb_to_hsv_range 1 (1 / 5) 0 (by norm_num) (by norm_num) (by norm_num)
  have hcontract : ∀ t : TuyaLight, t.color_type_ ≠ TuyaColorType.RGB →
      (0 ≤ (sample_hsv_helpers.rgb_to_hsv 1 (1 / 5) 0).1 ∧
        (sample_hsv_helpers.rgb_to_hsv 1 (1 / 5) 0).1 < 65536) ∧
      (0 ≤ (sample_hsv_helpers.rgb_to_hsv 1 (1 / 5) 0).2.1 ∧
        (sample_hsv_helpers.rgb_to_hsv 1 (1 / 5) 0).2.1 ≤ 1) ∧
      (0 ≤ (sample_hsv_helpers.rgb_to_hsv 1 (1 / 5) 0).2.2 ∧
        (sample_hsv_helpers.rgb_to_hsv 1 (1 / 5) 0).2.2 ≤ 1) :=
    fun _ _ => ⟨⟨hrange.1.1, lt_trans hrange.1.2 (by decide)⟩, hrange.2.1, hrange.2.2⟩
  have h14 := color_value_wire_format sample_hsv_helpers
    (sample_encoding_light TuyaColorType.RGBHSV) 1 (1 / 5) 0 (by norm_num) (by norm_num)
    (by norm_num) (hcontract _)
  have h12 := color_value_wire_format sample_hsv_helpers
    (sample_encoding_light TuyaColorType.HSV) 1 (1 / 5) 0 (by norm_num) (by norm_num)
    (by norm_num) (hcontract _)
  exact ⟨h14.2.2.1, h14.2.2.2.1, h12.2.2.1, h12.1⟩

/-- The colour listener of a light at rest, in RGB mode, on a payload of six
hexadecimal digits: one RGB request with the three bytes divided by 255. -/
theorem color_listener_rgb_six (h : Helpers) (t : TuyaLight) (state : LightState)
    (value_uint : Nat) (value_bool : Bool) (c1 c2 c3 c4 c5 c6 : Char) (d1 d2 d3 d4 d5 d6 : Nat)
    (htype : t.color_type_ = TuyaColorType.RGB)
    (hrest : state.current_values = state.remote_values)
    (h1 : hex_value c1 = some d1) (h2 : hex_value c2 = some d2) (h3 : hex_value c3 = some d3)
    (h4 : hex_value c4 = some d4) (h5 : hex_value c5 = some d5) (h6 : hex_value c6 = some d6) :
    color_listener h t state ⟨value_uint, value_bool, [c1, c2, c3, c4, c5, c6]⟩ =
      some (t, [make_call.set_rgb (((16 * d1 + d2 : Nat) : ℚ) / 255)
        (((16 * d3 + d4 : Nat) : ℚ) / 255) (((16 * d5 + d6 : Nat) : ℚ) / 255)]) := by
  have hs1 : substr [c1, c2, c3, c4, c5, c6] 0 2 = some [c1, c2] := rfl
  have hs2 : substr [c1, c2, c3, c4, c5, c6] 2 2 = some [c3, c4] := rfl
  have hs3 : substr [c1, c2, c3, c4, c5, c6] 4 2 = some [c5, c6] := rfl
  simp [color_listener, transitioning_of_eq state hrest, htype, hs1, hs2, hs3,
    parse_hex_two c1 c2 d1 d2 h1 h2, parse_hex_two c3 c4 d3 d4 h3 h4,
    parse_hex_two c5 c6 d5 d6 h5 h6]

/-- A byte is printed as the pair of its high and low digits. -/
theorem format_X_byte (v : Int) (h0 : 0 ≤ v) (h1 : v ≤ 255) :
    ∃ d1 d2 : Nat, d1 < 16 ∧ d2 < 16 ∧ v = ((16 * d1 + d2 : Nat) : Int) ∧
      format_X 2 v = [hex_upper d1, hex_upper d2] := by
  refine ⟨v.toNat / 16, v.toNat % 16, by omega, by omega, ?_, ?_⟩
  · omega
  · have hv : v = ((16 * (v.toNat / 16) + v.toNat % 16 : Nat) : Int) := by omega
    calc format_X 2 v = format_X 2 ((16 * (v.toNat / 16) + v.toNat % 16 : Nat) : Int) := by
          rw [← hv]
      _ = [hex_upper (v.toNat / 16), hex_upper (v.toNat % 16)] :=
          format_X_two _ _ (by omega) (by omega)

/-- The byte read back from a formatted channel is within 1/255 of the channel. -/
theorem channel_within_step (q : ℚ) (n : Nat) (hq0 : 0 ≤ q)
    (hn : float_to_int (q * 255) = (n : Int)) : |(n : ℚ) / 255 - q| ≤ 1 / 255 := by
  have hb := float_to_int_bounds (q * 255) (by positivity)
  rw [hn] at hb
  have h1 : ((n : Int) : ℚ) = (n : ℚ) := Int.cast_natCast n
  rw [h1] at hb
  rw [abs_le]
  constructor
  · linarith [hb.2.2]
  · linarith [hb.2.1]

/-- The RGB formatter undoes the division by 255 of the listener. -/
theorem format_X_decoded_byte (c1 c2 : Char) (d1 d2 : Nat) (h1 : d1 < 16) (h2 : d2 < 16)
    (hc1 : hex_upper d1 = c1) (hc2 : hex_upper d2 = c2) :
    format_X 2 (float_to_int (((16 * d1 + d2 : Nat) : ℚ) / 255 * 255)) = [c1, c2] := by
  rw [div_mul_cancel₀ _ (by norm_num : (255 : ℚ) ≠ 0), float_to_int_natCast,
    format_X_two d1 d2 h1 h2, hc1, hc2]

/-- C12: in RGB mode, for a light at rest and in exact arithmetic, a payload x
of six upper-case hexadecimal digits is decoded by the colour listener into
one RGB request with channels R/255, G/255, B/255, and the outbound formatter
applied to that colour gives x again; conversely, for red, green and blue in
[0,1] the listener decodes the formatted string into channels within 1/255 of
red, green and blue. -/
theorem rgb_encoding_self_inverse (h : Helpers) (t : TuyaLight) (state : LightState)
    (value_uint : Nat) (value_bool : Bool) (x : List Char) (red green blue : ℚ)
    (htype : t.color_type_ = TuyaColorType.RGB)
    (hrest : state.current_values = state.remote_values)
    (hlen : x.length = 6) (hhex : ∀ c ∈ x, is_upper_hex c = true)
    (hred : 0 ≤ red ∧ red ≤ 1) (hgreen : 0 ≤ green ∧ green ≤ 1) (hblue : 0 ≤ blue ∧ blue ≤ 1) :
    (∃ r g b : Nat, r < 256 ∧ g < 256 ∧ b < 256 ∧
        color_listener h t state ⟨value_uint, value_bool, x⟩ =
          some (t, [make_call.set_rgb ((r : ℚ) / 255) ((g : ℚ) / 255) ((b : ℚ) / 255)]) ∧
        color_value_exact h t ((r : ℚ) / 255) ((g : ℚ) / 255) ((b : ℚ) / 255) = x) ∧
      (∃ r' g' b' : ℚ,
        color_listener h t state ⟨value_uint, value_bool, color_value_exact h t red green blue⟩ =
          some (t, [make_call.set_rgb r' g' b']) ∧
        |r' - red| ≤ 1 / 255 ∧ |g' - green| ≤ 1 / 255 ∧ |b' - blue| ≤ 1 / 255) := by
  constructor
  · -- decode, then format
    obtain ⟨c1, c2, c3, c4, c5, c6, rfl⟩ : ∃ c1 c2 c3 c4 c5 c6, x = [c1, c2, c3, c4, c5, c6] := by
      match x, hlen with
      | [c1, c2, c3, c4, c5, c6], _ => exact ⟨c1, c2, c3, c4, c5, c6, rfl⟩
    obtain ⟨d1, hd1, hv1, hu1⟩ := hex_upper_hex_value c1 (hhex c1 (by simp))
    obtain ⟨d2, hd2, hv2, hu2⟩ := hex_upper_hex_value c2 (hhex c2 (by simp))
    obtain ⟨d3, hd3, hv3, hu3⟩ := hex_upper_hex_value c3 (hhex c3 (by simp))
    obtain ⟨d4, hd4, hv4, hu4⟩ := hex_upper_hex_value c4 (hhex c4 (by simp))
    obtain ⟨d5, hd5, hv5, hu5⟩ := hex_upper_hex_value c5 (hhex c5 (by simp))
    obtain ⟨d6, hd6, hv6, hu6⟩ := hex_upper_hex_value c6 (hhex c6 (by simp))
    refine ⟨16 * d1 + d2, 16 * d3 + d4, 16 * d5 + d6, by omega, by omega, by omega,
      color_listener_rgb_six h t state value_uint value_bool c1 c2 c3 c4 c5 c6 d1 d2 d3 d4 d5 d6
        htype hrest hv1 hv2 hv3 hv4 hv5 hv6, ?_⟩
    simp only [color_value_exact, color_value_with, htype]
    rw [format_X_decoded_byte c1 c2 d1 d2 hd1 hd2 hu1 hu2,
      format_X_decoded_byte c3 c4 d3 d4 hd3 hd4 hu3 hu4,
      format_X_decoded_byte c5 c6 d5 d6 hd5 hd6 hu5 hu6]
    rfl
  · -- format, then decode
    have hR := float_to_int_scaled red 255 hred.1 hred.2
    have hG := float_to_int_scaled green 255 hgreen.1 hgreen.2
    have hB := float_to_int_scaled blue 255 hblue.1 hblue.2
    simp only [Nat.cast_ofNat] at hR hG hB
    obtain ⟨a1, a2, ha1, ha2, hva, hfa⟩ := format_X_byte _ hR.1 hR.2
    obtain ⟨b1, b2, hb1, hb2, hvb, hfb⟩ := format_X_byte _ hG.1 hG.2
    obtain ⟨e1, e2, he1, he2, hve, hfe⟩ := format_X_byte _ hB.1 hB.2
    have hstring : color_value_exact h t red green blue =
        [hex_upper a1, hex_upper a2, hex_upper b1, hex_upper b2, hex_upper e1, hex_upper e2] := by
      simp only [color_value_exact, color_value_with, htype, hfa, hfb, hfe]
      rfl
    refine ⟨((16 * a1 + a2 : Nat) : ℚ) / 255, ((16 * b1 + b2 : Nat) : ℚ) / 255,
      ((16 * e1 + e2 : Nat) : ℚ) / 255, ?_, channel_within_step red _ hred.1 hva,
      channel_within_step green _ hgreen.1 hvb, channel_within_step blue _ hblue.1 hve⟩
    rw [hstring]
    exact color_listener_rgb_six h t state value_uint value_bool _ _ _ _ _ _ a1 a2 b1 b2 e1 e2
      htype hrest (hex_value_hex_upper a1 ha1) (hex_value_hex_upper a2 ha2)
      (hex_value_hex_upper b1 hb1) (hex_value_hex_upper b2 hb2)
      (hex_value_hex_upper e1 he1) (hex_value_hex_upper e2 he2)

theorem rgb_encoding_self_inverse_witness :
    (∃ r g b : Nat, r < 256 ∧ g < 256 ∧ b < 256 ∧
        color_listener sample_helpers (sample_encoding_light TuyaColorType.RGB) (sample_state 1 1)
            ⟨0, false, ['F', 'F', '8', '0', '0', 'A']⟩ =
          some (sample_encoding_light TuyaColorType.RGB,
            [make_call.set_rgb ((r : ℚ) / 255) ((g : ℚ) / 255) ((b : ℚ) / 255)]) ∧
        color_value_exact sample_helpers (sample_encoding_light TuyaColorType.RGB)
            ((r : ℚ) / 255) ((g : ℚ) / 255) ((b : ℚ) / 255) =
          ['F', 'F', '8', '0', '0', 'A']) ∧
      (∃ r' g' b' : ℚ,
        color_listener sample_helpers (sample_encoding_light TuyaColorType.RGB) (sample_state 1 1)
            ⟨0, false, color_value_exact sample_helpers (sample_encoding_light TuyaColorType.RGB)
              1 (1 / 2) 0⟩ =
          some (sample_encoding_light TuyaColorType.RGB, [make_call.set_rgb r' g' b']) ∧
        |r' - 1| ≤ 1 / 255 ∧ |g' - 1 / 2| ≤ 1 / 255 ∧ |b' - 0| ≤ 1 / 255) :=
  rgb_encoding_self_inverse sample_helpers (sample_encoding_light TuyaColorType.RGB)
    (sample_state 1 1) 0 false ['F', 'F', '8', '0', '0', 'A'] 1 (1 / 2) 0 rfl rfl rfl
    (by decide) (by norm_num) (by norm_num) (by norm_num)

/-! ## Malformed colour payloads -/

theorem hex_digits_value_isSome (s : List Char) :
    (hex_digits_value s).isSome = true ↔ ∀ c ∈ s, hex_value c ≠ none := by
  induction s with
  | nil => simp [hex_digits_value]
  | cons c cs ih =>
    simp only [List.mem_cons, forall_eq_or_imp, ← ih]
    cases hc : hex_value c <;> cases hcs : hex_digits_value cs <;>
      simp [hex_digits_value, hc, hcs]

/-- A field parses exactly when it has the full width and holds hexadecimal
digits only. -/
theorem parse_hex_isSome (width : Nat) (s : List Char) :
    (parse_hex width s).isSome = true ↔ s.length = width ∧ ∀ c ∈ s, hex_value c ≠ none := by
  unfold parse_hex
  split_ifs with hlen
  · rw [hex_digits_value_isSome]
    exact ⟨fun hall => ⟨hlen, hall⟩, fun hboth => hboth.2⟩
  · simp [hlen]

theorem substr_of_le (s : List Char) (pos len : Nat) (hpos : pos ≤ s.length) :
    substr s pos len = some ((s.drop pos).take len) := by
  simp [substr, hpos]

/-- Three consecutive fields of the same width all parse exactly when the
payload is at least three fields long and its first three fields hold
hexadecimal digits only. -/
theorem three_fields_parse (width : Nat) (s : List Char) (hw : 0 < width) :
    ((parse_hex width ((s.drop 0).take width)).isSome = true ∧
        (parse_hex width ((s.drop width).take width)).isSome = true ∧
        (parse_hex width ((s.drop (2 * width)).take width)).isSome = true) ↔
      (3 * width ≤ s.length ∧ ∀ c ∈ s.take (3 * width), hex_value c ≠ none) := by
  have hsplit : s.take (3 * width) =
      (s.drop 0).take width ++ ((s.drop width).take width ++ (s.drop (2 * width)).take width) := by
    have h3 : 3 * width = width + (width + width) := by ring
    have h2 : 2 * width = width + width := by ring
    rw [h3, h2, List.take_add, List.take_add, List.drop_drop, List.drop_zero]
  simp only [parse_hex_isSome, hsplit, List.mem_append, List.length_take, List.length_drop]
  constructor
  · rintro ⟨⟨-, h1⟩, ⟨-, h2⟩, ⟨hl3, h3⟩⟩
    refine ⟨by omega, ?_⟩
    rintro c (hc | hc | hc)
    · exact h1 c hc
    · exact h2 c hc
    · exact h3 c hc
  · rintro ⟨hlen, hall⟩
    exact ⟨⟨by omega, fun c hc => hall c (Or.inl hc)⟩,
      ⟨by omega, fun c hc => hall c (Or.inr (Or.inl hc))⟩,
      ⟨by omega, fun c hc => hall c (Or.inr (Or.inr hc))⟩⟩

/-- The outcome of a listener branch that issues one call when its three
fields parse and nothing otherwise. -/
theorem three_fields_outcome (t : TuyaLight) (p1 p2 p3 : Option Nat)
    (f : Nat → Nat → Nat → LightCall) (valid : Prop)
    (hvalid : (p1.isSome = true ∧ p2.isSome = true ∧ p3.isSome = true) ↔ valid) :
    ∃ calls,
      (match p1, p2, p3 with
        | some a, some b, some c => some (t, [f a b c])
        | _, _, _ => some (t, [])) = some (t, calls) ∧
      (calls = [] ∨ ∃ a b c, calls = [f a b c]) ∧
      (¬ valid → calls = []) ∧
      (valid → ∃ a b c, calls = [f a b c]) := by
  cases p1 <;> cases p2 <;> cases p3 <;>
    simp only [Option.isSome_none, Option.isSome_some, Bool.false_eq_true, false_and, and_false,
      and_self, false_iff, true_iff] at hvalid
  all_goals first
    | exact ⟨[], rfl, Or.inl rfl, fun _ => rfl, fun hv => absurd hv hvalid⟩
    | exact ⟨_, rfl, Or.inr ⟨_, _, _, rfl⟩, fun hn => absurd hvalid hn, fun _ => ⟨_, _, _, rfl⟩⟩

/-- C11 (as the code has it): for every encoding and every payload long enough
for the last `substr` call (4 characters in RGB and combined mode, 8 in HSV
mode) the colour listener terminates normally, leaves the adapter unchanged
and issues either no request or exactly one RGB request.  It issues no request
whenever the payload is shorter than the parsed fields (6 characters in RGB
and combined mode, 12 in HSV mode) or one of their characters is not a
hexadecimal digit; when the light is at rest and the parsed fields are
complete and hexadecimal it issues the request, whatever follows them. -/
theorem color_listener_discards_malformed (h : Helpers) (t : TuyaLight) (state : LightState)
    (datapoint : TuyaDatapoint)
    (hlen : last_field_position t.color_type_ ≤ datapoint.value_string.length) :
    ∃ calls,
      color_listener h t state datapoint = some (t, calls) ∧
      (calls = [] ∨ ∃ r g b, calls = [make_call.set_rgb r g b]) ∧
      ((datapoint.value_string.length < parsed_width t.color_type_ ∨
          ∃ c ∈ datapoint.value_string.take (parsed_width t.color_type_), hex_value c = none) →
        calls = []) ∧
      (transitioning state = false →
        parsed_width t.color_type_ ≤ datapoint.value_string.length →
        (∀ c ∈ datapoint.value_string.take (parsed_width t.color_type_), hex_value c ≠ none) →
        ∃ r g b, calls = [make_call.set_rgb r g b]) := by
  cases hguard : transitioning state
  swap
  · exact ⟨[], by simp [color_listener, hguard], Or.inl rfl, fun _ => rfl,
      fun hf => absurd hf (by simp)⟩
  have hinvalid : ∀ width : Nat,
      (datapoint.value_string.length < width ∨
        ∃ c ∈ datapoint.value_string.take width, hex_value c = none) →
      ¬ (width ≤ datapoint.value_string.length ∧
        ∀ c ∈ datapoint.value_string.take width, hex_value c ≠ none) := by
    rintro width (hshort | ⟨c, hc, hnone⟩) ⟨hfull, hall⟩
    · omega
    · exact hall c hc hnone
  cases htype : t.color_type_
  · -- RGB
    rw [htype] at hlen
    simp only [last_field_position] at hlen
    obtain ⟨calls, hcalls, hshape, hnone, hsome⟩ := three_fields_outcome t
      (parse_hex 2 ((datapoint.value_string.drop 0).take 2))
      (parse_hex 2 ((datapoint.value_string.drop 2).take 2))
      (parse_hex 2 ((datapoint.value_string.drop 4).take 2))
      (fun r g b => make_call.set_rgb ((r : ℚ) / 255) ((g : ℚ) / 255) ((b : ℚ) / 255)) _
      (three_fields_parse 2 datapoint.value_string (by decide))
    refine ⟨calls, ?_, ?_, ?_, ?_⟩
    · rw [← hcalls]
      simp only [color_listener, hguard, Bool.false_eq_true, if_false, htype,
        substr_of_le datapoint.value_string 0 2 (Nat.zero_le _),
        substr_of_le datapoint.value_string 2 2 (by omega),
        substr_of_le datapoint.value_string 4 2 hlen, Option.some_bind]
      try rfl
    · rcases hshape with hs | ⟨a, b, c, hs⟩
      · exact Or.inl hs
      · exact Or.inr ⟨_, _, _, hs⟩
    · intro hbad
      exact hnone (hinvalid 6 hbad)
    · intro _ hfull hall
      obtain ⟨a, b, c, hs⟩ := hsome ⟨hfull, hall⟩
      exact ⟨_, _, _, hs⟩
  · -- HSV
    rw [htype] at hlen
    simp only [last_field_position] at hlen
    obtain ⟨calls, hcalls, hshape, hnone, hsome⟩ := three_fields_outcome t
      (parse_hex 4 ((datapoint.value_string.drop 0).take 4))
      (parse_hex 4 ((datapoint.value_string.drop 4).take 4))
      (parse_hex 4 ((datapoint.value_string.drop 8).take 4))
      (fun hu sa va => make_call.set_rgb
        (h.hsv_to_rgb (hu : Int) ((sa : ℚ) / 1000) ((va : ℚ) / 1000)).1
        (h.hsv_to_rgb (hu : Int) ((sa : ℚ) / 1000) ((va : ℚ) / 1000)).2.1
        (h.hsv_to_rgb (hu : Int) ((sa : ℚ) / 1000) ((va : ℚ) / 1000)).2.2) _
      (three_fields_parse 4 datapoint.value_string (by decide))
    refine ⟨calls, ?_, ?_, ?_, ?_⟩
    · rw [← hcalls]
      simp only [color_listener, hguard, Bool.false_eq_true, if_false, htype,
        substr_of_le datapoint.value_string 0 4 (Nat.zero_le _),
        substr_of_le datapoint.value_string 4 4 (by omega),
        substr_of_le datapoint.value_string 8 4 hlen, Option.some_bind]
      try rfl
    · rcases hshape with hs | ⟨a, b, c, hs⟩
      · exact Or.inl hs
      · exact Or.inr ⟨_, _, _, hs⟩
    · intro hbad
      exact hnone (hinvalid 12 hbad)
    · intro _ hfull hall
      obtain ⟨a, b, c, hs⟩ := hsome ⟨hfull, hall⟩
      exact ⟨_, _, _, hs⟩
  · -- combined mode: the RGB fields only
    rw [htype] at hlen
    simp only [last_field_position] at hlen
    obtain ⟨calls, hcalls, hshape, hnone, hsome⟩ := three_fields_outcome t
      (parse_hex 2 ((datapoint.value_string.drop 0).take 2))
      (parse_hex 2 ((datapoint.value_string.drop 2).take 2))
      (parse_hex 2 ((datapoint.value_string.drop 4).take 2))
      (fun r g b => make_call.set_rgb ((r : ℚ) / 255) ((g : ℚ) / 255) ((b : ℚ) / 255)) _
      (three_fields_parse 2 datapoint.value_string (by decide))
    refine ⟨calls, ?_, ?_, ?_, ?_⟩
    · rw [← hcalls]
      simp only [color_listener, hguard, Bool.false_eq_true, if_false, htype,
        substr_of_le datapoint.value_string 0 2 (Nat.zero_le _),
        substr_of_le datapoint.value_string 2 2 (by omega),
        substr_of_le datapoint.value_string 4 2 hlen, Option.some_bind]
      try rfl
    · rcases hshape with hs | ⟨a, b, c, hs⟩
      · exact Or.inl hs
      · exact Or.inr ⟨_, _, _, hs⟩
    · intro hbad
      exact hnone (hinvalid 6 hbad)
    · intro _ hfull hall
      obtain ⟨a, b, c, hs⟩ := hsome ⟨hfull, hall⟩
      exact ⟨_, _, _, hs⟩

theorem color_listener_discards_malformed_witness :
    last_field_position (sample_encoding_light TuyaColorType.RGB).color_type_ ≤
        (['F', 'F', '0', '0', 'G', '1'] : List Char).length ∧
      color_listener sample_helpers (sample_encoding_light TuyaColorType.RGB) (sample_state 1 1)
          ⟨0, false, ['F', 'F', '0', '0', 'G', '1']⟩ =
        some (sample_encoding_light TuyaColorType.RGB, []) := by
  obtain ⟨calls, hcalls, -, hnone, -⟩ :=
    color_listener_discards_malformed sample_helpers (sample_encoding_light TuyaColorType.RGB)
      (sample_state 1 1) ⟨0, false, ['F', 'F', '0', '0', 'G', '1']⟩ (by decide)
  have hempty : calls = [] := hnone (Or.inr ⟨'G', by decide, by decide⟩)
  rw [hempty] at hcalls
  exact ⟨by decide, hcalls⟩

/-- C11 fails in two ways.  An empty payload makes the second `substr` call of
the listener raise `std::out_of_range`, so the listener does not terminate
normally; and a payload that does not have the width of its mode is not
discarded when its leading fields parse: eight characters in RGB mode, or the
six characters FF0000 in combined mode (width 14), issue an RGB request. -/
theorem color_listener_short_and_long_payloads :
    color_listener sample_helpers (sample_encoding_light TuyaColorType.RGB) (sample_state 1 1)
        ⟨0, false, []⟩ = none ∧
      (['F', 'F', '0', '0', '0', '0', 'A', 'B'] : List Char).length ≠
        wire_width (sample_encoding_light TuyaColorType.RGB).color_type_ ∧
      color_listener sample_helpers (sample_encoding_light TuyaColorType.RGB) (sample_state 1 1)
          ⟨0, false, ['F', 'F', '0', '0', '0', '0', 'A', 'B']⟩ =
        some (sample_encoding_light TuyaColorType.RGB, [make_call.set_rgb 1 0 0]) ∧
      (['F', 'F', '0', '0', '0', '0'] : List Char).length ≠
        wire_width (sample_encoding_light TuyaColorType.RGBHSV).color_type_ ∧
      color_listener sample_helpers (sample_encoding_light TuyaColorType.RGBHSV) (sample_state 1 1)
          ⟨0, false, ['F', 'F', '0', '0', '0', '0']⟩ =
        some (sample_encoding_light TuyaColorType.RGBHSV, [make_call.set_rgb 1 0 0]) := by
  have hFF : parse_hex 2 ['F', 'F'] = some 255 := by decide
  have h00 : parse_hex 2 ['0', '0'] = some 0 := by decide
  have hrest := transitioning_of_eq (sample_state 1 1) rfl
  refine ⟨?_, by decide, ?_, by decide, ?_⟩
  · simp [color_listener, hrest, sample_encoding_light, sample_color_light, sample_light, substr]
  · simp [color_listener, hrest, sample_encoding_light, sample_color_light, sample_light, substr,
      hFF, h00, make_call, LightCall.set_rgb]
  · simp [color_listener, hrest, sample_encoding_light, sample_color_light, sample_light, substr,
      hFF, h00, make_call, LightCall.set_rgb]

end tuya
end esphome
